import Mathlib

/-!
Verification of the dd-trace-py application-security core against its
natural-language specification.  The development shallowly embeds:

* the WAF native-object marshaling bridge
  (`ddtrace/appsec/ddwaf/ddwaf_types.py`: `ddwaf_object.__init__` as the
  encoder and the `ddwaf_object.struct` property as the decoder),
* the merge-then-dispatch remote-config publisher
  (`ddtrace/internal/remoteconfig/_publishers.py`:
  `RemoteConfigPublisherMergeFirst`),
* the remote-config path validation gate
  (`_validate_config_exists_in_target_paths`, modelled from the spec since
  only its tests ship in the source tree),
* the AppSec span processor decision logic
  (`ddtrace/appsec/processor.py`: `_transform_headers`, `on_span_start`,
  `on_span_finish`).

Python values are modelled by the inductive type `PyVal`; stateful methods
become explicit state-passing functions; code that can raise returns
`Except` or an explicit error component.
-/

set_option maxHeartbeats 1000000
set_option maxRecDepth 100000

namespace DDTrace

/-- Keys of Python dictionaries as they occur in this code base: either a
unicode `str` (host-side input dicts) or a `bytes` object (the decoded side,
where `ctypes.c_char_p` yields bytes).  In Python 3, `"a" == b"a"` is false,
so the two constructors are kept distinct. -/
inductive PyKey where
  | str (s : String)
  | bytes (b : List UInt8)
deriving DecidableEq, Repr

/-- The Python values handled by the appsec/remote-config core: `None`,
`int` (with `bool` as a separate constructor, mirroring the distinct Python
type that `isinstance(x, int)` nevertheless accepts), unicode `str`,
`bytes`, ordered `list`, and insertion-ordered `dict`. -/
inductive PyVal where
  | none
  | int (n : Int)
  | bool (b : Bool)
  | str (s : String)
  | bytes (b : List UInt8)
  | list (xs : List PyVal)
  | dict (kvs : List (PyKey × PyVal))

/-- UTF-8 encoding of a string as a byte list (`str.encode("UTF-8")`). -/
def utf8Bytes (s : String) : List UInt8 :=
  s.data.bind (fun c => String.utf8EncodeChar c)

/-- Python numeric value of a `bool`: in Python, `True == 1` and
`False == 0`, and `int(True) == 1`. -/
def boolToInt (b : Bool) : Int :=
  if b then 1 else 0

mutual
/-- Python `==` on `PyVal`: numeric cross-type equality (`True == 1`),
`str` and `bytes` never equal, lists compare element-wise, dicts compare as
key-to-value maps (formulated as two-sided inclusion, which agrees with
Python dict equality whenever keys are unique, as they are in every real
Python dict). -/
def pyEq : PyVal → PyVal → Bool
  | .none, .none => true
  | .int m, .int n => m == n
  | .int m, .bool b => m == boolToInt b
  | .bool b, .int n => boolToInt b == n
  | .bool a, .bool b => a == b
  | .str s, .str t => s == t
  | .bytes a, .bytes b => a == b
  | .list xs, .list ys => pyEqList xs ys
  | .dict xs, .dict ys => pyEqDict xs ys && pyEqDict ys xs
  | _, _ => false
termination_by a b => sizeOf a + sizeOf b
decreasing_by all_goals (simp_wf <;> omega)

/-- Element-wise Python `==` on lists. -/
def pyEqList : List PyVal → List PyVal → Bool
  | [], [] => true
  | x :: xs, y :: ys => pyEq x y && pyEqList xs ys
  | _, _ => false
termination_by xs ys => sizeOf xs + sizeOf ys
decreasing_by all_goals (simp_wf <;> omega)

/-- One inclusion of Python dict equality: every key of the first dict is
present in the second with a `pyEq`-equal value. -/
def pyEqDict : List (PyKey × PyVal) → List (PyKey × PyVal) → Bool
  | [], _ => true
  | (k, v) :: xs, ys => pyEqDictLookup k v ys && pyEqDict xs ys
termination_by xs ys => sizeOf xs + sizeOf ys
decreasing_by all_goals (simp_wf <;> omega)

/-- Membership of a key-value pair in a dict, up to `pyEq` on the value. -/
def pyEqDictLookup : PyKey → PyVal → List (PyKey × PyVal) → Bool
  | _, _, [] => false
  | k, v, (k₂, v₂) :: ys => (k == k₂ && pyEq v v₂) || pyEqDictLookup k v ys
termination_by _ v ys => sizeOf v + sizeOf ys
decreasing_by all_goals (simp_wf <;> omega)
end

/-! ## Native value bridge (`ddtrace/appsec/ddwaf/ddwaf_types.py`) -/

/-- `DDWAF_MAX_STRING_LENGTH` -/
def DDWAF_MAX_STRING_LENGTH : Nat := 4096

/-- `DDWAF_MAX_CONTAINER_DEPTH` -/
def DDWAF_MAX_CONTAINER_DEPTH : Nat := 20

/-- `DDWAF_MAX_CONTAINER_SIZE` -/
def DDWAF_MAX_CONTAINER_SIZE : Nat := 256

/-- The native `ddwaf_object` tagged union, one constructor per
`DDWAF_OBJ_TYPE` tag (`invalid`, `signed`, `unsigned`, `string`, `array`,
`map`, `bool`); the `nbEntries` field of a container is the length of its
child list, and a map entry carries its `parameterName` bytes. -/
inductive DDObj where
  | invalid
  | signed (n : Int)
  | unsigned (n : Nat)
  | string (b : List UInt8)
  | array (xs : List DDObj)
  | map (kvs : List (List UInt8 × DDObj))
  | bool (b : Bool)

/-- Modelled from the spec: the native `ddwaf_object_string` builder, whose
implementation lives in the vendored `libddwaf` binary rather than in the
Python sources.  Per the spec's `NativeValue` invariant, "string length ≤
4096 bytes (longer values truncated before encoding)", it stores the UTF-8
bytes truncated to `DDWAF_MAX_STRING_LENGTH`. -/
def ddwafObjectString (b : List UInt8) : DDObj :=
  .string (b.take DDWAF_MAX_STRING_LENGTH)

/-- The `ctypes.c_int64` conversion applied to the value passed to
`ddwaf_object_signed`: ctypes masks a Python int to 64 bits (two's
complement) with no overflow checking, so values outside the int64 range
wrap modulo `2 ^ 64`. -/
def int64Wrap (n : Int) : Int :=
  (n + 2 ^ 63) % 2 ^ 64 - 2 ^ 63

/-- The `ctypes.c_char_p` read semantics used by the decoder for
`value.stringValue` and `parameterName`: the bytes up to (and excluding)
the first NUL byte. -/
def cCharP : List UInt8 → List UInt8
  | [] => []
  | c :: rest => if c == 0 then [] else c :: cCharP rest

/-- Modelled from the spec: the native container-append builders
(`ddwaf_object_array_add` / `ddwaf_object_map_add`).  Per the spec's
invariant "container (array/map) size ≤ 256 entries" and §8 "encode clips
rather than failing", an append beyond `DDWAF_MAX_CONTAINER_SIZE` is
silently dropped and the call still reports success, so a clipped container
holds only its first 256 children. -/
def ddwafContainerClip {α : Type} (xs : List α) : List α :=
  xs.take DDWAF_MAX_CONTAINER_SIZE

mutual
/-- `ddwaf_object.__init__` (the encoder of the native value bridge).
Dispatch order follows the source: `None`, `int` (which in Python also
catches `bool`, a subclass of `int`, sending `True`/`False` through
`ddwaf_object_signed`), unicode `str` (UTF-8 encoded then passed to the
native string builder), `list`, `dict` (keys UTF-8 encoded; a non-`str` key
makes `key.encode` fail), anything else raises `TypeError`.  The container
branches first encode every child (`list(map(ddwaf_object, struct))` /
the `d_res` comprehension), then append the children and `assert` that
`nbEntries` equals the number of children — under the clipping container
builders this assertion fails exactly when the container has more than
`DDWAF_MAX_CONTAINER_SIZE` entries. -/
def encodePy : PyVal → Except String DDObj
  | .none => .ok .invalid
  | .int n => .ok (.signed (int64Wrap n))
  | .bool b => .ok (.signed (int64Wrap (boolToInt b)))
  | .str s => .ok (ddwafObjectString (utf8Bytes s))
  | .list xs => do
      let objs ← encodePyList xs
      if xs.length ≤ DDWAF_MAX_CONTAINER_SIZE then
        .ok (.array (ddwafContainerClip objs))
      else
        .error "AssertionError"
  | .dict kvs => do
      let pairs ← encodePyDict kvs
      if kvs.length ≤ DDWAF_MAX_CONTAINER_SIZE then
        .ok (.map (ddwafContainerClip pairs))
      else
        .error "AssertionError"
  | .bytes _ => .error "TypeError: ddwaf_object : unknown type in structure."
termination_by structural v => v

/-- Child traversal of the encoder's `list` branch. -/
def encodePyList : List PyVal → Except String (List DDObj)
  | [] => .ok []
  | x :: xs => do
      let o ← encodePy x
      let os ← encodePyList xs
      .ok (o :: os)
termination_by structural xs => xs

/-- Child traversal of the encoder's `dict` branch: each key is
`key.encode("UTF-8")` (failing on a non-`str` key), each value is encoded
recursively. -/
def encodePyDict : List (PyKey × PyVal) → Except String (List (List UInt8 × DDObj))
  | [] => .ok []
  | (PyKey.str sk, v) :: kvs => do
      let o ← encodePy v
      let os ← encodePyDict kvs
      .ok ((utf8Bytes sk, o) :: os)
  | (PyKey.bytes _, _) :: _ => .error "AttributeError: bytes object has no encode"
termination_by structural kvs => kvs
end

mutual
/-- The `ddwaf_object.struct` property (the decoder): `Invalid` decodes to
`None`, `Signed`/`Unsigned` to the stored integer, `String` to
`value.stringValue` — which through `ctypes.c_char_p` is a Python 3 `bytes`
object, not a `str`, and stops at the first NUL byte — `Array` to the list
of decoded children, `Map` to a dict whose keys are the `parameterName`
bytes (also read through `c_char_p`), and `Bool` to the boolean.
The source builds the map with a dict comprehension whose last-write-wins
collapse of duplicate keys is not modelled here; encoder outputs for real
Python dicts always carry distinct keys. -/
def decodeDD : DDObj → PyVal
  | .invalid => .none
  | .signed n => .int n
  | .unsigned n => .int (n : Int)
  | .string b => .bytes (cCharP b)
  | .array xs => .list (decodeDDList xs)
  | .map kvs => .dict (decodeDDMap kvs)
  | .bool b => .bool b
termination_by structural o => o

/-- Child traversal of the decoder's `array` branch. -/
def decodeDDList : List DDObj → List PyVal
  | [] => []
  | x :: xs => decodeDD x :: decodeDDList xs
termination_by structural xs => xs

/-- Child traversal of the decoder's `map` branch. -/
def decodeDDMap : List (List UInt8 × DDObj) → List (PyKey × PyVal)
  | [] => []
  | (k, v) :: kvs => (PyKey.bytes (cCharP k), decodeDD v) :: decodeDDMap kvs
termination_by structural kvs => kvs
end

/-- Normalization of a dict key under an encode/decode round trip: a `str`
key comes back as its UTF-8 bytes. -/
def normKey : PyKey → PyKey
  | .str s => .bytes (utf8Bytes s)
  | .bytes b => .bytes b

mutual
/-- What an encode/decode round trip actually returns for a host value:
`bool` collapses to its integer value (the encoder's `isinstance(struct,
int)` branch catches `bool`), a `str` comes back as its UTF-8 `bytes`, dict
keys likewise, and containers normalize recursively. -/
def pyNorm : PyVal → PyVal
  | .none => .none
  | .int n => .int n
  | .bool b => .int (boolToInt b)
  | .str s => .bytes (utf8Bytes s)
  | .bytes b => .bytes b
  | .list xs => .list (pyNormList xs)
  | .dict kvs => .dict (pyNormDict kvs)
termination_by structural v => v

/-- `pyNorm` on list children. -/
def pyNormList : List PyVal → List PyVal
  | [] => []
  | x :: xs => pyNorm x :: pyNormList xs
termination_by structural xs => xs

/-- `pyNorm` on dict entries. -/
def pyNormDict : List (PyKey × PyVal) → List (PyKey × PyVal)
  | [] => []
  | (k, v) :: kvs => (normKey k, pyNorm v) :: pyNormDict kvs
termination_by structural kvs => kvs
end

mutual
/-- Nesting depth of a host value: scalars have depth 0, a container is one
deeper than its deepest child. -/
def pyDepth : PyVal → Nat
  | .list xs => 1 + pyDepthList xs
  | .dict kvs => 1 + pyDepthDict kvs
  | _ => 0
termination_by structural v => v

/-- Maximum depth over list children. -/
def pyDepthList : List PyVal → Nat
  | [] => 0
  | x :: xs => max (pyDepth x) (pyDepthList xs)
termination_by structural xs => xs

/-- Maximum depth over dict values. -/
def pyDepthDict : List (PyKey × PyVal) → Nat
  | [] => 0
  | (_, v) :: kvs => max (pyDepth v) (pyDepthDict kvs)
termination_by structural kvs => kvs
end

/-- Distinctness of dict keys, as holds for every real Python dict. -/
def nodupKeys : List (PyKey × PyVal) → Bool
  | [] => true
  | (k, _) :: kvs => !(kvs.any (fun kv => kv.1 == k)) && nodupKeys kvs

mutual
/-- The size bounds of the claims together with the marshaling ranges of
the ctypes boundary, as a computable check: a value built from `None` /
`int` / `str` / `bool` / `list` / string-keyed `dict` whose strings are at
most `DDWAF_MAX_STRING_LENGTH` UTF-8 bytes and NUL-free (`c_char_p` stops
at a NUL on decode), whose ints fit in `int64` (`c_int64` wraps larger
values), and whose containers have at most `DDWAF_MAX_CONTAINER_SIZE`
entries (with distinct `str` dict keys, as in every real Python dict). -/
def boundedOk : PyVal → Bool
  | .none => true
  | .int n => decide (-(2 ^ 63) ≤ n ∧ n < 2 ^ 63)
  | .bool _ => true
  | .str s => decide ((utf8Bytes s).length ≤ DDWAF_MAX_STRING_LENGTH)
      && (utf8Bytes s).all (fun c => !(c == 0))
  | .bytes _ => false
  | .list xs => decide (xs.length ≤ DDWAF_MAX_CONTAINER_SIZE) && boundedOkList xs
  | .dict kvs => decide (kvs.length ≤ DDWAF_MAX_CONTAINER_SIZE) && nodupKeys kvs
      && boundedOkDict kvs
termination_by structural v => v

/-- `boundedOk` on list children. -/
def boundedOkList : List PyVal → Bool
  | [] => true
  | x :: xs => boundedOk x && boundedOkList xs
termination_by structural xs => xs

/-- `boundedOk` on dict entries: keys must be `str` and within the string
length bound, values bounded recursively. -/
def boundedOkDict : List (PyKey × PyVal) → Bool
  | [] => true
  | (PyKey.str s, v) :: kvs =>
      (decide ((utf8Bytes s).length ≤ DDWAF_MAX_STRING_LENGTH)
        && (utf8Bytes s).all (fun c => !(c == 0)))
      && boundedOk v && boundedOkDict kvs
  | (PyKey.bytes _, _) :: _ => false
termination_by structural kvs => kvs
end

mutual
/-- Whether a native object tree is free of the `DDWAF_OBJ_BOOL` tag. -/
def noBoolTag : DDObj → Bool
  | .invalid => true
  | .signed _ => true
  | .unsigned _ => true
  | .string _ => true
  | .array xs => noBoolTagList xs
  | .map kvs => noBoolTagMap kvs
  | .bool _ => false
termination_by structural o => o

/-- `noBoolTag` over array children. -/
def noBoolTagList : List DDObj → Bool
  | [] => true
  | x :: xs => noBoolTag x && noBoolTagList xs
termination_by structural xs => xs

/-- `noBoolTag` over map entries. -/
def noBoolTagMap : List (List UInt8 × DDObj) → Bool
  | [] => true
  | (_, v) :: kvs => noBoolTag v && noBoolTagMap kvs
termination_by structural kvs => kvs
end

/-! ### Round-trip lemmas for the native value bridge -/

theorem int64Wrap_eq_self {n : Int} (h1 : -(2 ^ 63) ≤ n) (h2 : n < 2 ^ 63) :
    int64Wrap n = n := by
  have e63 : (2 : Int) ^ 63 = 9223372036854775808 := by norm_num
  have e64 : (2 : Int) ^ 64 = 18446744073709551616 := by norm_num
  rw [int64Wrap, Int.emod_eq_of_lt (by omega) (by omega)]
  omega

theorem cCharP_eq_self : ∀ (l : List UInt8), (∀ c ∈ l, (c == 0) = false) → cCharP l = l
  | [], _ => rfl
  | c :: l, h => by
      rw [cCharP, if_neg (by simp [h c (List.mem_cons_self c l)]),
        cCharP_eq_self l (fun x hx => h x (List.mem_cons_of_mem c hx))]

mutual
/-- What an in-bounds encode/decode round trip returns: the encoder
succeeds and the decoder yields the `pyNorm` normalization of the input. -/
theorem rt_val : ∀ (v : PyVal), boundedOk v = true →
    ∃ o : DDObj, encodePy v = Except.ok o ∧ decodeDD o = pyNorm v
  | .none, _ => ⟨.invalid, rfl, rfl⟩
  | .int n, hb => by
      rw [boundedOk] at hb
      simp only [decide_eq_true_eq] at hb
      exact ⟨.signed n, by simp [encodePy, int64Wrap_eq_self hb.1 hb.2], rfl⟩
  | .bool b, _ => by cases b <;> exact ⟨_, rfl, rfl⟩
  | .str s, hb => by
      rw [boundedOk] at hb
      simp only [Bool.and_eq_true, decide_eq_true_eq, List.all_eq_true,
        Bool.not_eq_true'] at hb
      refine ⟨DDObj.string (utf8Bytes s), ?_, ?_⟩
      · simp [encodePy, ddwafObjectString, List.take_of_length_le hb.1]
      · simp [decodeDD, pyNorm, cCharP_eq_self _ hb.2]
  | .bytes b, hb => by simp [boundedOk] at hb
  | .list xs, hb => by
      rw [boundedOk] at hb
      simp only [Bool.and_eq_true, decide_eq_true_eq] at hb
      obtain ⟨os, hos, hlen, hdec⟩ := rt_list xs hb.2
      refine ⟨.array os, ?_, ?_⟩
      · simp [encodePy, hos, hb.1, ddwafContainerClip, Bind.bind, Except.bind,
          List.take_of_length_le (hlen ▸ hb.1)]
      · simp [decodeDD, pyNorm, hdec]
  | .dict kvs, hb => by
      rw [boundedOk] at hb
      simp only [Bool.and_eq_true, decide_eq_true_eq] at hb
      obtain ⟨os, hos, hlen, hdec⟩ := rt_dict kvs hb.2
      refine ⟨.map os, ?_, ?_⟩
      · simp [encodePy, hos, hb.1.1, ddwafContainerClip, Bind.bind, Except.bind,
          List.take_of_length_le (hlen ▸ hb.1.1)]
      · simp [decodeDD, pyNorm, hdec]
termination_by structural v => v

/-- Round trip over the children of a `list`. -/
theorem rt_list : ∀ (xs : List PyVal), boundedOkList xs = true →
    ∃ os : List DDObj, encodePyList xs = Except.ok os ∧
      os.length = xs.length ∧ decodeDDList os = pyNormList xs
  | [], _ => ⟨[], rfl, rfl, rfl⟩
  | x :: xs, hb => by
      rw [boundedOkList] at hb
      simp only [Bool.and_eq_true] at hb
      obtain ⟨o, ho, hd⟩ := rt_val x hb.1
      obtain ⟨os, hos, hlen, hds⟩ := rt_list xs hb.2
      refine ⟨o :: os, ?_, by simp [hlen], ?_⟩
      · simp [encodePyList, ho, hos, Bind.bind, Except.bind]
      · simp [decodeDDList, pyNormList, hd, hds]
termination_by structural xs => xs

/-- Round trip over the entries of a `dict`. -/
theorem rt_dict : ∀ (kvs : List (PyKey × PyVal)), boundedOkDict kvs = true →
    ∃ os : List (List UInt8 × DDObj), encodePyDict kvs = Except.ok os ∧
      os.length = kvs.length ∧ decodeDDMap os = pyNormDict kvs
  | [], _ => ⟨[], rfl, rfl, rfl⟩
  | (PyKey.str s, v) :: kvs, hb => by
      rw [boundedOkDict] at hb
      simp only [Bool.and_eq_true] at hb
      obtain ⟨⟨⟨hkl, hknul⟩, hv⟩, hrest⟩ := hb
      simp only [List.all_eq_true, Bool.not_eq_true'] at hknul
      obtain ⟨o, ho, hd⟩ := rt_val v hv
      obtain ⟨os, hos, hlen, hds⟩ := rt_dict kvs hrest
      refine ⟨(utf8Bytes s, o) :: os, ?_, by simp [hlen], ?_⟩
      · simp [encodePyDict, ho, hos, Bind.bind, Except.bind]
      · simp [decodeDDMap, pyNormDict, normKey, hd, hds, cCharP_eq_self _ hknul]
  | (PyKey.bytes _, _) :: _, hb => by rw [boundedOkDict] at hb; exact absurd hb (by simp)
termination_by structural kvs => kvs
end

/-- A host value nested `n` lists deep around an `int`. -/
def nestedList : Nat → PyVal
  | 0 => .int 0
  | n + 1 => .list [nestedList n]

/-- The native object the encoder builds for `nestedList n`. -/
def nestedArr : Nat → DDObj
  | 0 => .signed 0
  | n + 1 => .array [nestedArr n]

/-- The encoder imposes no depth limit: arbitrarily deep nesting encodes
fully. -/
theorem encode_nestedList : ∀ n : Nat, encodePy (nestedList n) = Except.ok (nestedArr n)
  | 0 => rfl
  | n + 1 => by
      simp [nestedList, nestedArr, encodePy, encodePyList, encode_nestedList n,
        Bind.bind, Except.bind, ddwafContainerClip, DDWAF_MAX_CONTAINER_SIZE]

/-- Truncating a tag-clean array keeps it tag-clean. -/
theorem noBoolTagList_take : ∀ (n : Nat) (os : List DDObj),
    noBoolTagList os = true → noBoolTagList (os.take n) = true
  | _, [], _ => by simp [noBoolTagList]
  | 0, _ :: _, _ => by simp [List.take, noBoolTagList]
  | n + 1, o :: os, h => by
      rw [noBoolTagList] at h
      simp only [Bool.and_eq_true] at h
      simp [List.take, noBoolTagList, h.1, noBoolTagList_take n os h.2]

/-- Truncating a tag-clean map keeps it tag-clean. -/
theorem noBoolTagMap_take : ∀ (n : Nat) (os : List (List UInt8 × DDObj)),
    noBoolTagMap os = true → noBoolTagMap (os.take n) = true
  | _, [], _ => by simp [noBoolTagMap]
  | 0, _ :: _, _ => by simp [List.take, noBoolTagMap]
  | n + 1, (k, o) :: os, h => by
      rw [noBoolTagMap] at h
      simp only [Bool.and_eq_true] at h
      simp [List.take, noBoolTagMap, h.1, noBoolTagMap_take n os h.2]

mutual
/-- The encoder never produces the `DDWAF_OBJ_BOOL` tag: Python `bool`
input is caught by the `isinstance(struct, int)` branch first. -/
theorem encode_noBool : ∀ (v : PyVal) (o : DDObj),
    encodePy v = Except.ok o → noBoolTag o = true
  | .none, o, h => by cases h; rfl
  | .int _, o, h => by cases h; rfl
  | .bool _, o, h => by cases h; rfl
  | .str _, o, h => by cases h; rfl
  | .list xs, o, h => by
      rw [encodePy] at h
      cases hos : encodePyList xs with
      | error e => simp [hos, Bind.bind, Except.bind] at h
      | ok os =>
        simp only [hos, Bind.bind, Except.bind] at h
        by_cases hlen : xs.length ≤ DDWAF_MAX_CONTAINER_SIZE
        · rw [if_pos hlen] at h
          cases h
          rw [noBoolTag]
          exact noBoolTagList_take _ os (encode_noBoolList xs os hos)
        · rw [if_neg hlen] at h
          cases h
  | .dict kvs, o, h => by
      rw [encodePy] at h
      cases hos : encodePyDict kvs with
      | error e => simp [hos, Bind.bind, Except.bind] at h
      | ok os =>
        simp only [hos, Bind.bind, Except.bind] at h
        by_cases hlen : kvs.length ≤ DDWAF_MAX_CONTAINER_SIZE
        · rw [if_pos hlen] at h
          cases h
          rw [noBoolTag]
          exact noBoolTagMap_take _ os (encode_noBoolDict kvs os hos)
        · rw [if_neg hlen] at h
          cases h
  | .bytes _, o, h => by cases h
termination_by structural v => v

/-- `encode_noBool` over list children. -/
theorem encode_noBoolList : ∀ (xs : List PyVal) (os : List DDObj),
    encodePyList xs = Except.ok os → noBoolTagList os = true
  | [], os, h => by cases h; rfl
  | x :: xs, os, h => by
      rw [encodePyList] at h
      cases ho : encodePy x with
      | error e => simp [ho, Bind.bind, Except.bind] at h
      | ok o =>
        cases hos : encodePyList xs with
        | error e => simp [ho, hos, Bind.bind, Except.bind] at h
        | ok os₂ =>
          simp only [ho, hos, Bind.bind, Except.bind] at h
          cases h
          rw [noBoolTagList]
          simp [encode_noBool x o ho, encode_noBoolList xs os₂ hos]
termination_by structural xs => xs

/-- `encode_noBool` over dict entries. -/
theorem encode_noBoolDict : ∀ (kvs : List (PyKey × PyVal)) (os : List (List UInt8 × DDObj)),
    encodePyDict kvs = Except.ok os → noBoolTagMap os = true
  | [], os, h => by cases h; rfl
  | (PyKey.bytes _, _) :: _, os, h => by rw [encodePyDict] at h; cases h
  | (PyKey.str sk, v) :: kvs, os, h => by
      rw [encodePyDict] at h
      cases ho : encodePy v with
      | error e => simp [ho, Bind.bind, Except.bind] at h
      | ok o =>
        cases hos : encodePyDict kvs with
        | error e => simp [ho, hos, Bind.bind, Except.bind] at h
        | ok os₂ =>
          simp only [ho, hos, Bind.bind, Except.bind] at h
          cases h
          rw [noBoolTagMap]
          simp [encode_noBool v o ho, encode_noBoolDict kvs os₂ hos]
termination_by structural kvs => kvs
end

/-! ### Claims C1, C2, C9 -/

/-- C1 counterexample: the string `"a"` is within every bound, yet the
round trip returns the `bytes` object `b"a"` — the `struct` decoder reads
`value.stringValue` through `ctypes.c_char_p`, which yields `bytes`, and in
Python 3 `b"a" == "a"` is false, so `decode(encode("a")) == "a"` fails. -/
theorem ddwaf_roundtrip_fails_on_str :
    boundedOk (PyVal.str "a") = true
    ∧ pyDepth (PyVal.str "a") ≤ DDWAF_MAX_CONTAINER_DEPTH
    ∧ (encodePy (PyVal.str "a")).map decodeDD = Except.ok (PyVal.bytes [97])
    ∧ pyEq (PyVal.bytes [97]) (PyVal.str "a") = false
    ∧ PyVal.bytes [97] ≠ PyVal.str "a" :=
  ⟨rfl, by decide, rfl, by simp [pyEq], fun h => PyVal.noConfusion h⟩

/-- C1 (amended): for every host value within the size/depth bounds whose
ints additionally fit in `int64` and whose strings (dict keys included)
are NUL-free — `boundedOk` checks exactly these, since `ctypes.c_int64`
wraps larger ints and `ctypes.c_char_p` truncates at a NUL — the encoder
succeeds and decoding returns the `pyNorm` normalization of the input:
each `bool` replaced by its integer value and each `str` (including dict
keys) replaced by its UTF-8 `bytes`; the round-trip value is Python-`==`
to the original exactly when no `str` was involved. -/
theorem ddwaf_roundtrip_normalized (v : PyVal)
    (hb : boundedOk v = true) (hd : pyDepth v ≤ DDWAF_MAX_CONTAINER_DEPTH) :
    ∃ o : DDObj, encodePy v = Except.ok o ∧ decodeDD o = pyNorm v :=
  rt_val v hb

/-- Witness for `ddwaf_roundtrip_normalized` at a concrete nested value. -/
theorem ddwaf_roundtrip_normalized_witness :
    boundedOk (PyVal.dict [(PyKey.str "k", PyVal.list [PyVal.int 1, PyVal.bool true])]) = true
    ∧ pyDepth (PyVal.dict [(PyKey.str "k", PyVal.list [PyVal.int 1, PyVal.bool true])])
        ≤ DDWAF_MAX_CONTAINER_DEPTH
    ∧ ∃ o : DDObj,
        encodePy (PyVal.dict [(PyKey.str "k", PyVal.list [PyVal.int 1, PyVal.bool true])])
          = Except.ok o
        ∧ decodeDD o = pyNorm (PyVal.dict [(PyKey.str "k", PyVal.list [PyVal.int 1, PyVal.bool true])]) :=
  ⟨rfl, by decide, ddwaf_roundtrip_normalized _ rfl (by decide)⟩

/-- C2 counterexample: a 257-element list and a 257-entry dict each make
the encoder raise (`assert array.nbEntries == len(l_res)` resp.
`assert map_o.nbEntries == len(d_res)` fails) instead of clipping, and a
25-deep nesting is encoded in full, so depth is not limited either. -/
theorem encode_raises_on_oversized_container :
    encodePy (PyVal.list (List.replicate 257 (PyVal.int 0))) = Except.error "AssertionError"
    ∧ encodePy (PyVal.dict ((List.range 257).map
        (fun i => (PyKey.str (Nat.repr i), PyVal.int 0)))) = Except.error "AssertionError"
    ∧ encodePy (nestedList 25) = Except.ok (nestedArr 25)
    ∧ DDWAF_MAX_CONTAINER_DEPTH < pyDepth (nestedList 25) :=
  ⟨rfl, by rfl, encode_nestedList 25, by decide⟩

/-- C2 (amended): over-long strings are truncated to
`DDWAF_MAX_STRING_LENGTH` bytes without error, but a list or dict with
more than `DDWAF_MAX_CONTAINER_SIZE` entries makes the encoder raise an
`AssertionError` (its own `assert nbEntries == len` fires once the native
builders clip), and nesting depth is not limited at encode time. -/
theorem encode_bounds_amended :
    (∀ s : String, encodePy (PyVal.str s)
        = Except.ok (DDObj.string ((utf8Bytes s).take DDWAF_MAX_STRING_LENGTH)))
    ∧ (∀ xs : List PyVal, boundedOkList xs = true →
        DDWAF_MAX_CONTAINER_SIZE < xs.length →
        encodePy (PyVal.list xs) = Except.error "AssertionError")
    ∧ (∀ kvs : List (PyKey × PyVal), boundedOkDict kvs = true →
        DDWAF_MAX_CONTAINER_SIZE < kvs.length →
        encodePy (PyVal.dict kvs) = Except.error "AssertionError")
    ∧ (∀ n : Nat, encodePy (nestedList n) = Except.ok (nestedArr n)) := by
  refine ⟨fun s => rfl, fun xs h hlen => ?_, fun kvs h hlen => ?_, encode_nestedList⟩
  · obtain ⟨os, hos, -, -⟩ := rt_list xs h
    rw [encodePy]
    simp only [hos, Bind.bind, Except.bind]
    rw [if_neg (by omega)]
  · obtain ⟨os, hos, -, -⟩ := rt_dict kvs h
    rw [encodePy]
    simp only [hos, Bind.bind, Except.bind]
    rw [if_neg (by omega)]

/-- Witness for `encode_bounds_amended` at concrete inputs: an over-long
string, a 257-element list, a 257-entry dict, and a 3-deep nesting. -/
theorem encode_bounds_amended_witness :
    encodePy (PyVal.str "x")
      = Except.ok (DDObj.string ((utf8Bytes "x").take DDWAF_MAX_STRING_LENGTH))
    ∧ encodePy (PyVal.list (List.replicate 257 (PyVal.bool true))) = Except.error "AssertionError"
    ∧ encodePy (PyVal.dict ((List.range 257).map
        (fun i => (PyKey.str (Nat.repr i), PyVal.int 0)))) = Except.error "AssertionError"
    ∧ encodePy (nestedList 3) = Except.ok (nestedArr 3) :=
  ⟨encode_bounds_amended.1 "x",
   encode_bounds_amended.2.1 _ (by rfl) (by decide),
   encode_bounds_amended.2.2.1 _ (by rfl) (by decide),
   encode_bounds_amended.2.2.2 3⟩

/-- C9: the encoder sends Python `bool` through `ddwaf_object_signed`
(`isinstance(True, int)` holds), producing a Signed-tagged object with
value `int(b)`; no encoder output ever carries the `DDWAF_OBJ_BOOL` tag,
and `decode(encode(True))` is the `int` `1`, not the `bool` `True`. -/
theorem encode_bool_signed :
    (∀ b : Bool, encodePy (PyVal.bool b) = Except.ok (DDObj.signed (boolToInt b)))
    ∧ (∀ (v : PyVal) (o : DDObj), encodePy v = Except.ok o → noBoolTag o = true)
    ∧ (encodePy (PyVal.bool true)).map decodeDD = Except.ok (PyVal.int 1)
    ∧ PyVal.int 1 ≠ PyVal.bool true :=
  ⟨fun b => by cases b <;> rfl, encode_noBool, rfl, fun h => PyVal.noConfusion h⟩

/-- Witness for `encode_bool_signed` at a concrete input. -/
theorem encode_bool_signed_witness :
    encodePy (PyVal.bool false) = Except.ok (DDObj.signed 0)
    ∧ noBoolTag (DDObj.signed 0) = true :=
  ⟨encode_bool_signed.1 false,
   encode_bool_signed.2.1 (PyVal.bool false) (DDObj.signed 0) (encode_bool_signed.1 false)⟩

/-! ## Merge-then-dispatch publisher
(`ddtrace/internal/remoteconfig/_publishers.py`,
`RemoteConfigPublisherMergeFirst`) -/

/-- Python dict lookup (`d.get(k)`), on an insertion-ordered association
list. -/
def assocLookup {κ α : Type} [DecidableEq κ] : List (κ × α) → κ → Option α
  | [], _ => Option.none
  | (k, v) :: kvs, key => if k = key then some v else assocLookup kvs key

/-- Python dict assignment (`d[k] = v`): an existing key keeps its position
in insertion order, a new key is appended at the end. -/
def assocSet {κ α : Type} [DecidableEq κ] : List (κ × α) → κ → α → List (κ × α)
  | [], key, v => [(key, v)]
  | (k, w) :: kvs, key, v =>
      if k = key then (key, v) :: kvs else (k, w) :: assocSet kvs key v

/-- Python dict deletion (`del d[k]`). -/
def assocDel {κ α : Type} [DecidableEq κ] (m : List (κ × α)) (key : κ) : List (κ × α) :=
  m.filter (fun kv => decide (kv.1 ≠ key))

/-- Python `d.update(other)`: assign `other`'s entries into `d` in order. -/
def dictUpdate {κ α : Type} [DecidableEq κ] (d upd : List (κ × α)) : List (κ × α) :=
  upd.foldl (fun m kv => assocSet m kv.1 kv.2) d

/-- The `_configs` state of `RemoteConfigPublisherMergeFirst`: a dict from
target path to the accumulated config dict for that target. -/
abbrev RCConfigs := List (String × List (PyKey × PyVal))

/-- The first two lines of `append`: `if not self._configs.get(target):
self._configs[target] = {}` — an absent or empty entry is (re)set to the
empty dict before the config is examined. -/
def ensureTarget (cs : RCConfigs) (t : String) : RCConfigs :=
  if ((assocLookup cs t).getD []).isEmpty then assocSet cs t [] else cs

/-- `RemoteConfigPublisherMergeFirst.append(target, config)`: after
ensuring the target entry exists, `config is False` deletes the entry
(removal sentinel), `None` is a no-op, a dict is merged into the entry via
`dict.update`, and anything else raises `ValueError` — with the
already-performed `ensureTarget` mutation left in place.  Returns the
raised error (if any) together with the state after the call. -/
def appendMergeFirst (cs : RCConfigs) (target : String) (config : PyVal) :
    Option String × RCConfigs :=
  let cs1 := ensureTarget cs target
  match config with
  | .bool false => (Option.none, assocDel cs1 target)
  | .none => (Option.none, cs1)
  | .dict kvs =>
      (Option.none, assocSet cs1 target (dictUpdate ((assocLookup cs1 target).getD []) kvs))
  | _ => (some "ValueError", cs1)

/-- One step of the `dispatch` merge loop body for a `(key, value)` pair of
one target's config: a list value is appended onto
`config_result.get(key, []) + value` — raising `TypeError` when the
accumulated value is a dict —, a dict value overwrites (last write wins),
and any other value is logged and dropped. -/
def mergeStep (acc : List (PyKey × PyVal)) (kv : PyKey × PyVal) :
    Except String (List (PyKey × PyVal)) :=
  match kv.2 with
  | .list xs =>
      match assocLookup acc kv.1 with
      | Option.none => .ok (assocSet acc kv.1 (.list xs))
      | some (.list ys) => .ok (assocSet acc kv.1 (.list (ys ++ xs)))
      | some _ => .error "TypeError: unsupported operand types"
  | .dict ds => .ok (assocSet acc kv.1 (.dict ds))
  | _ => .ok acc

/-- The `(key, value)` pairs visited by `dispatch`'s double loop
(`for target, config in self._configs.items(): for key, value in
config.items()`), in iteration order. -/
def allPairs (cs : RCConfigs) : List (PyKey × PyVal) :=
  cs.bind (fun tc => tc.2)

/-- The merge computed by `dispatch` before publication, or the exception
escaping the loop. -/
def dispatchMerge (cs : RCConfigs) : Except String (List (PyKey × PyVal)) :=
  (allPairs cs).foldlM mergeStep []

/-- `RemoteConfigPublisherMergeFirst.dispatch` with no
`_preprocess_results_func` (the claims' setting): the whole body runs in a
`try` whose `except Exception` only logs, so a merge error publishes
nothing, and a successful merge is written to the data connector exactly
once (`self._data_connector.write("", result)`); the result is the list of
writes performed.  `dispatch` does not clear `_configs`. -/
def dispatchMergeFirst (cs : RCConfigs) : List (List (PyKey × PyVal)) :=
  match dispatchMerge cs with
  | .ok r => [r]
  | .error _ => []

/-- Folding a sequence of dict-config `append` calls from the initial empty
state, as in the claims' scenario (errors cannot occur: every config is a
dict). -/
def appendEntries (entries : List (String × List (PyKey × PyVal))) : RCConfigs :=
  entries.foldl (fun cs e => (appendMergeFirst cs e.1 (PyVal.dict e.2)).2) []

/-- One step of the merge projected to a single key. -/
def mergeKeyStep (acc : Option PyVal) (v : PyVal) : Except String (Option PyVal) :=
  match v with
  | .list xs =>
      match acc with
      | Option.none => .ok (some (.list xs))
      | some (.list ys) => .ok (some (.list (ys ++ xs)))
      | some _ => .error "TypeError: unsupported operand types"
  | .dict ds => .ok (some (.dict ds))
  | _ => .ok acc

/-- The values contributed to one key, in visit order. -/
def valsFor (k : PyKey) (pairs : List (PyKey × PyVal)) : List PyVal :=
  (pairs.filter (fun kv => decide (kv.1 = k))).map Prod.snd

/-- Python `isinstance(v, list)`. -/
def isList : PyVal → Bool
  | .list _ => true
  | _ => false

/-- Python `isinstance(v, dict)`. -/
def isDict : PyVal → Bool
  | .dict _ => true
  | _ => false

/-- No value in the list is a Python list. -/
def noLists (vals : List PyVal) : Bool :=
  vals.all (fun w => !(isList w))

/-- No list-valued contribution arrives after a dict-valued one: once a
dict is seen for a key, a later list for the same key would hit
`dict + list` and raise `TypeError` inside the merge loop. -/
def noListAfterDict : List PyVal → Bool
  | [] => true
  | v :: rest => if isDict v then noLists rest else noListAfterDict rest

/-- The last dict-valued contribution, if any. -/
def lastDict : List PyVal → Option PyVal
  | [] => Option.none
  | v :: rest => if isDict v then some ((lastDict rest).getD v) else lastDict rest

/-- The payload of a list value (empty for anything else). -/
def listPayload : PyVal → List PyVal
  | .list xs => xs
  | _ => []

/-- Concatenation of the payloads of the list-valued contributions. -/
def listItems (vals : List PyVal) : List PyVal :=
  vals.bind listPayload

/-- The merged value one key ends up with: the last dict contribution if
any dict was contributed, otherwise the concatenation of the list
contributions (absent if the key received only dropped scalars or
nothing). -/
def keySpec (vals : List PyVal) : Option PyVal :=
  match lastDict vals with
  | some d => some d
  | Option.none =>
      if vals.any isList then some (.list (listItems vals)) else Option.none

/-! ### Association-list lemmas -/

theorem assocLookup_assocSet_self {κ α : Type} [DecidableEq κ]
    (m : List (κ × α)) (k : κ) (v : α) :
    assocLookup (assocSet m k v) k = some v := by
  induction m with
  | nil => simp [assocSet, assocLookup]
  | cons kv m ih =>
      obtain ⟨k2, w⟩ := kv
      by_cases h : k2 = k
      · subst h; simp [assocSet, assocLookup]
      · simp [assocSet, assocLookup, h, ih]

theorem assocLookup_assocSet_ne {κ α : Type} [DecidableEq κ]
    (m : List (κ × α)) (k k2 : κ) (v : α) (h : k ≠ k2) :
    assocLookup (assocSet m k v) k2 = assocLookup m k2 := by
  induction m with
  | nil => simp [assocSet, assocLookup, h]
  | cons kv m ih =>
      obtain ⟨k3, w⟩ := kv
      by_cases h3 : k3 = k
      · subst h3; simp [assocSet, assocLookup, h]
      · simp [assocSet, assocLookup, h3, ih]

theorem assocSet_eq_self {κ α : Type} [DecidableEq κ]
    {m : List (κ × α)} {k : κ} {v : α} (h : assocLookup m k = some v) :
    assocSet m k v = m := by
  induction m with
  | nil => simp [assocLookup] at h
  | cons kv m ih =>
      obtain ⟨k2, w⟩ := kv
      by_cases h2 : k2 = k
      · subst h2
        simp [assocLookup] at h
        simp [assocSet, h]
      · simp [assocLookup, h2] at h
        simp [assocSet, h2, ih h]

theorem assocSet_append_fresh {κ α : Type} [DecidableEq κ]
    {m : List (κ × α)} {k : κ} (h : assocLookup m k = Option.none) (v : α) :
    assocSet m k v = m ++ [(k, v)] := by
  induction m with
  | nil => simp [assocSet]
  | cons kv m ih =>
      obtain ⟨k2, w⟩ := kv
      by_cases h2 : k2 = k
      · subst h2; simp [assocLookup] at h
      · simp [assocLookup, h2] at h
        simp [assocSet, h2, ih h]

theorem assocLookup_append_none {κ α : Type} [DecidableEq κ]
    {m : List (κ × α)} {k : κ} (h : assocLookup m k = Option.none)
    (m2 : List (κ × α)) : assocLookup (m ++ m2) k = assocLookup m2 k := by
  induction m with
  | nil => simp
  | cons kv m ih =>
      obtain ⟨k2, w⟩ := kv
      by_cases h2 : k2 = k
      · subst h2; simp [assocLookup] at h
      · simp [assocLookup, h2] at h ⊢
        exact ih h

theorem assocSet_append_last {κ α : Type} [DecidableEq κ]
    {m : List (κ × α)} {k : κ} (h : assocLookup m k = Option.none) (x v : α) :
    assocSet (m ++ [(k, x)]) k v = m ++ [(k, v)] := by
  induction m with
  | nil => simp [assocSet]
  | cons kv m ih =>
      obtain ⟨k2, w⟩ := kv
      by_cases h2 : k2 = k
      · subst h2; simp [assocLookup] at h
      · simp [assocLookup, h2] at h
        simp [assocSet, h2, ih h]

/-! ### Projecting the dispatch merge to a single key -/

theorem mergeStep_ok_lookup_self {acc acc2 : List (PyKey × PyVal)}
    {p : PyKey × PyVal} (h : mergeStep acc p = .ok acc2) :
    mergeKeyStep (assocLookup acc p.1) p.2 = .ok (assocLookup acc2 p.1) := by
  obtain ⟨k, v⟩ := p
  cases v with
  | list xs =>
      cases hl : assocLookup acc k with
      | none =>
          simp [mergeStep, hl] at h
          simp [mergeKeyStep, hl, ← h, assocLookup_assocSet_self]
      | some w =>
          cases w with
          | list ys =>
              simp [mergeStep, hl] at h
              simp [mergeKeyStep, hl, ← h, assocLookup_assocSet_self]
          | none => simp [mergeStep, hl] at h
          | int n => simp [mergeStep, hl] at h
          | bool b => simp [mergeStep, hl] at h
          | str t => simp [mergeStep, hl] at h
          | bytes b => simp [mergeStep, hl] at h
          | dict ds => simp [mergeStep, hl] at h
  | dict ds =>
      simp [mergeStep] at h
      simp [mergeKeyStep, ← h, assocLookup_assocSet_self]
  | none => simp [mergeStep] at h; simp [mergeKeyStep, h]
  | int n => simp [mergeStep] at h; simp [mergeKeyStep, h]
  | bool b => simp [mergeStep] at h; simp [mergeKeyStep, h]
  | str t => simp [mergeStep] at h; simp [mergeKeyStep, h]
  | bytes b => simp [mergeStep] at h; simp [mergeKeyStep, h]

theorem mergeStep_ok_lookup_ne {acc acc2 : List (PyKey × PyVal)}
    {p : PyKey × PyVal} (h : mergeStep acc p = .ok acc2)
    (k2 : PyKey) (hne : p.1 ≠ k2) :
    assocLookup acc2 k2 = assocLookup acc k2 := by
  obtain ⟨k, v⟩ := p
  cases v with
  | list xs =>
      cases hl : assocLookup acc k with
      | none =>
          simp [mergeStep, hl] at h
          simp [← h, assocLookup_assocSet_ne _ _ _ _ hne]
      | some w =>
          cases w with
          | list ys =>
              simp [mergeStep, hl] at h
              simp [← h, assocLookup_assocSet_ne _ _ _ _ hne]
          | none => simp [mergeStep, hl] at h
          | int n => simp [mergeStep, hl] at h
          | bool b => simp [mergeStep, hl] at h
          | str t => simp [mergeStep, hl] at h
          | bytes b => simp [mergeStep, hl] at h
          | dict ds => simp [mergeStep, hl] at h
  | dict ds =>
      simp [mergeStep] at h
      simp [← h, assocLookup_assocSet_ne _ _ _ _ hne]
  | none => simp [mergeStep] at h; simp [h]
  | int n => simp [mergeStep] at h; simp [h]
  | bool b => simp [mergeStep] at h; simp [h]
  | str t => simp [mergeStep] at h; simp [h]
  | bytes b => simp [mergeStep] at h; simp [h]

theorem mergeStep_err {acc : List (PyKey × PyVal)} {p : PyKey × PyVal}
    {e : String} (h : mergeStep acc p = .error e) :
    mergeKeyStep (assocLookup acc p.1) p.2 = .error e := by
  obtain ⟨k, v⟩ := p
  cases v with
  | list xs =>
      cases hl : assocLookup acc k with
      | none => simp [mergeStep, hl] at h
      | some w =>
          cases w with
          | list ys => simp [mergeStep, hl] at h
          | none => simp [mergeStep, hl] at h; simp [mergeKeyStep, hl, h]
          | int n => simp [mergeStep, hl] at h; simp [mergeKeyStep, hl, h]
          | bool b => simp [mergeStep, hl] at h; simp [mergeKeyStep, hl, h]
          | str t => simp [mergeStep, hl] at h; simp [mergeKeyStep, hl, h]
          | bytes b => simp [mergeStep, hl] at h; simp [mergeKeyStep, hl, h]
          | dict ds => simp [mergeStep, hl] at h; simp [mergeKeyStep, hl, h]
  | dict ds => simp [mergeStep] at h
  | none => simp [mergeStep] at h
  | int n => simp [mergeStep] at h
  | bool b => simp [mergeStep] at h
  | str t => simp [mergeStep] at h
  | bytes b => simp [mergeStep] at h

theorem valsFor_cons (k : PyKey) (p : PyKey × PyVal) (ps : List (PyKey × PyVal)) :
    valsFor k (p :: ps)
      = if p.1 = k then p.2 :: valsFor k ps else valsFor k ps := by
  by_cases h : p.1 = k <;> simp [valsFor, List.filter_cons, h]

/-- Per-key projection of a successful dispatch merge: the merged value of
each key is the per-key fold of that key's contributions. -/
theorem dispatch_proj : ∀ (pairs : List (PyKey × PyVal)) (acc r : List (PyKey × PyVal)),
    pairs.foldlM mergeStep acc = .ok r →
    ∀ k, (valsFor k pairs).foldlM mergeKeyStep (assocLookup acc k)
      = .ok (assocLookup r k)
  | [], acc, r, h, k => by
      simp only [List.foldlM, pure, Except.pure, Except.ok.injEq] at h
      subst h
      simp [valsFor, List.foldlM, pure, Except.pure]
  | p :: ps, acc, r, h, k => by
      rw [List.foldlM] at h
      cases hp : mergeStep acc p with
      | error e => simp [hp, Bind.bind, Except.bind] at h
      | ok acc2 =>
          rw [hp] at h
          simp only [Bind.bind, Except.bind] at h
          have ih := dispatch_proj ps acc2 r h k
          rw [valsFor_cons]
          by_cases hk : p.1 = k
          · subst hk
            rw [if_pos rfl, List.foldlM, mergeStep_ok_lookup_self hp]
            simpa [Bind.bind, Except.bind] using ih
          · rw [if_neg hk, ← mergeStep_ok_lookup_ne hp k hk]
            exact ih

/-- A failing dispatch merge fails on some single key's fold. -/
theorem dispatch_err : ∀ (pairs : List (PyKey × PyVal)) (acc : List (PyKey × PyVal))
    (e : String), pairs.foldlM mergeStep acc = .error e →
    ∃ k, (valsFor k pairs).foldlM mergeKeyStep (assocLookup acc k) = .error e
  | [], acc, e, h => by simp [List.foldlM, pure, Except.pure] at h
  | p :: ps, acc, e, h => by
      rw [List.foldlM] at h
      cases hp : mergeStep acc p with
      | error e2 =>
          rw [hp] at h
          simp only [Bind.bind, Except.bind] at h
          cases h
          refine ⟨p.1, ?_⟩
          rw [valsFor_cons, if_pos rfl, List.foldlM, mergeStep_err hp]
          simp [Bind.bind, Except.bind]
      | ok acc2 =>
          rw [hp] at h
          simp only [Bind.bind, Except.bind] at h
          obtain ⟨k, hk⟩ := dispatch_err ps acc2 e h
          refine ⟨k, ?_⟩
          rw [valsFor_cons]
          by_cases hpk : p.1 = k
          · subst hpk
            rw [if_pos rfl, List.foldlM, mergeStep_ok_lookup_self hp]
            simpa [Bind.bind, Except.bind] using hk
          · rw [if_neg hpk, ← mergeStep_ok_lookup_ne hp k hpk]
            exact hk

/-! ### Characterizing the per-key fold -/

theorem mergeKey_dict_acc : ∀ (vals : List PyVal) (d : List (PyKey × PyVal)),
    noLists vals = true →
    vals.foldlM mergeKeyStep (some (PyVal.dict d))
      = .ok (some ((lastDict vals).getD (PyVal.dict d)))
  | [], d, _ => by simp [List.foldlM, lastDict, pure, Except.pure]
  | v :: rest, d, h => by
      rw [noLists, List.all_cons] at h
      simp only [Bool.and_eq_true] at h
      rw [List.foldlM]
      cases v with
      | dict ds =>
          rw [show mergeKeyStep (some (PyVal.dict d)) (PyVal.dict ds)
              = .ok (some (PyVal.dict ds)) from rfl]
          simp only [Bind.bind, Except.bind]
          rw [mergeKey_dict_acc rest ds h.2]
          simp [lastDict, isDict]
      | list xs => simp [isList] at h
      | none =>
          simp only [show mergeKeyStep (some (PyVal.dict d)) PyVal.none
              = .ok (some (PyVal.dict d)) from rfl, Bind.bind, Except.bind]
          rw [mergeKey_dict_acc rest d h.2]
          simp [lastDict, isDict]
      | int n =>
          simp only [show mergeKeyStep (some (PyVal.dict d)) (PyVal.int n)
              = .ok (some (PyVal.dict d)) from rfl, Bind.bind, Except.bind]
          rw [mergeKey_dict_acc rest d h.2]
          simp [lastDict, isDict]
      | bool b =>
          simp only [show mergeKeyStep (some (PyVal.dict d)) (PyVal.bool b)
              = .ok (some (PyVal.dict d)) from rfl, Bind.bind, Except.bind]
          rw [mergeKey_dict_acc rest d h.2]
          simp [lastDict, isDict]
      | str t =>
          simp only [show mergeKeyStep (some (PyVal.dict d)) (PyVal.str t)
              = .ok (some (PyVal.dict d)) from rfl, Bind.bind, Except.bind]
          rw [mergeKey_dict_acc rest d h.2]
          simp [lastDict, isDict]
      | bytes b =>
          simp only [show mergeKeyStep (some (PyVal.dict d)) (PyVal.bytes b)
              = .ok (some (PyVal.dict d)) from rfl, Bind.bind, Except.bind]
          rw [mergeKey_dict_acc rest d h.2]
          simp [lastDict, isDict]

theorem eq_dict_of_isDict {v : PyVal} (h : isDict v = true) :
    ∃ ds, v = PyVal.dict ds := by
  cases v <;> simp_all [isDict]

theorem eq_list_of_isList {v : PyVal} (h : isList v = true) :
    ∃ xs, v = PyVal.list xs := by
  cases v <;> simp_all [isList]

theorem mergeKey_scalar_step (a : Option PyVal) {v : PyVal}
    (h1 : isList v = false) (h2 : isDict v = false) :
    mergeKeyStep a v = .ok a := by
  cases v <;> simp_all [mergeKeyStep, isList, isDict]

theorem listPayload_scalar {v : PyVal} (h1 : isList v = false) :
    listPayload v = [] := by
  cases v <;> simp_all [listPayload, isList]

/-- The per-key result once a list accumulator `ys` is already present. -/
def keySpecFrom (ys vals : List PyVal) : Option PyVal :=
  match lastDict vals with
  | some d => some d
  | Option.none => some (.list (ys ++ listItems vals))

theorem mergeKey_list_acc : ∀ (vals ys : List PyVal),
    noListAfterDict vals = true →
    vals.foldlM mergeKeyStep (some (PyVal.list ys)) = .ok (keySpecFrom ys vals)
  | [], ys, _ => by
      simp [List.foldlM, keySpecFrom, lastDict, listItems, pure, Except.pure]
  | v :: rest, ys, h => by
      rw [List.foldlM]
      by_cases hd : isDict v = true
      · obtain ⟨ds, rfl⟩ := eq_dict_of_isDict hd
        rw [noListAfterDict] at h
        rw [if_pos hd] at h
        rw [show mergeKeyStep (some (PyVal.list ys)) (PyVal.dict ds)
            = .ok (some (PyVal.dict ds)) from rfl]
        simp only [Bind.bind, Except.bind]
        rw [mergeKey_dict_acc rest ds h]
        simp [keySpecFrom, lastDict, isDict]
      · rw [Bool.not_eq_true] at hd
        by_cases hl : isList v = true
        · obtain ⟨xs, rfl⟩ := eq_list_of_isList hl
          rw [noListAfterDict] at h
          rw [if_neg (by simp [hd])] at h
          rw [show mergeKeyStep (some (PyVal.list ys)) (PyVal.list xs)
              = .ok (some (PyVal.list (ys ++ xs))) from rfl]
          simp only [Bind.bind, Except.bind]
          rw [mergeKey_list_acc rest (ys ++ xs) h]
          simp only [keySpecFrom, lastDict, isDict, if_neg, listItems,
            List.cons_bind, listPayload]
          cases lastDict rest <;> simp
        · rw [Bool.not_eq_true] at hl
          rw [noListAfterDict] at h
          rw [if_neg (by simp [hd])] at h
          rw [mergeKey_scalar_step _ hl hd]
          simp only [Bind.bind, Except.bind]
          rw [mergeKey_list_acc rest ys h]
          simp only [keySpecFrom, lastDict, if_neg (by simp [hd] : ¬isDict v = true),
            listItems, List.cons_bind, listPayload_scalar hl]
          simp

theorem mergeKey_none : ∀ (vals : List PyVal),
    noListAfterDict vals = true →
    vals.foldlM mergeKeyStep Option.none = .ok (keySpec vals)
  | [], _ => by simp [List.foldlM, keySpec, lastDict, pure, Except.pure]
  | v :: rest, h => by
      rw [List.foldlM]
      by_cases hd : isDict v = true
      · obtain ⟨ds, rfl⟩ := eq_dict_of_isDict hd
        rw [noListAfterDict] at h
        rw [if_pos hd] at h
        rw [show mergeKeyStep Option.none (PyVal.dict ds)
            = .ok (some (PyVal.dict ds)) from rfl]
        simp only [Bind.bind, Except.bind]
        rw [mergeKey_dict_acc rest ds h]
        simp [keySpec, lastDict, isDict]
      · rw [Bool.not_eq_true] at hd
        by_cases hl : isList v = true
        · obtain ⟨xs, rfl⟩ := eq_list_of_isList hl
          rw [noListAfterDict] at h
          rw [if_neg (by simp [hd])] at h
          rw [show mergeKeyStep Option.none (PyVal.list xs)
              = .ok (some (PyVal.list xs)) from rfl]
          simp only [Bind.bind, Except.bind]
          rw [mergeKey_list_acc rest xs h]
          simp only [keySpec, keySpecFrom, lastDict, isDict, listItems,
            List.cons_bind, listPayload]
          cases lastDict rest <;> simp [isList]
        · rw [Bool.not_eq_true] at hl
          rw [noListAfterDict] at h
          rw [if_neg (by simp [hd])] at h
          rw [mergeKey_scalar_step _ hl hd]
          simp only [Bind.bind, Except.bind]
          rw [mergeKey_none rest h]
          simp only [keySpec, lastDict, if_neg (by simp [hd] : ¬isDict v = true),
            listItems, List.cons_bind, listPayload_scalar hl, List.any_cons, hl]
          simp

/-! ### Appending fresh targets -/

theorem dictUpdate_append_fresh : ∀ (kvs m : List (PyKey × PyVal)),
    nodupKeys kvs = true →
    kvs.all (fun kv => (assocLookup m kv.1).isNone) = true →
    dictUpdate m kvs = m ++ kvs
  | [], m, _, _ => by simp [dictUpdate]
  | kv :: kvs, m, h1, h2 => by
      obtain ⟨k, v⟩ := kv
      rw [nodupKeys] at h1
      simp only [Bool.and_eq_true] at h1
      rw [List.all_cons, Bool.and_eq_true] at h2
      have hm : assocLookup m k = Option.none :=
        Option.isNone_iff_eq_none.mp (by simpa using h2.1)
      have hstep : dictUpdate m ((k, v) :: kvs) = dictUpdate (m ++ [(k, v)]) kvs := by
        simp [dictUpdate, List.foldl_cons, assocSet_append_fresh hm]
      have hfresh : kvs.all (fun kv => (assocLookup (m ++ [(k, v)]) kv.1).isNone) = true := by
        rw [List.all_eq_true] at h2 ⊢
        intro p hp
        have hne : ¬(k = p.1) := by
          intro hpk
          have hany : kvs.any (fun kv => kv.1 == k) = true :=
            List.any_eq_true.mpr ⟨p, hp, by simp [hpk]⟩
          rw [hany] at h1
          simp at h1
        have hpm : assocLookup m p.1 = Option.none :=
          Option.isNone_iff_eq_none.mp (by simpa using h2.2 p hp)
        rw [assocLookup_append_none hpm]
        simp [assocLookup, hne]
      rw [hstep, dictUpdate_append_fresh kvs (m ++ [(k, v)]) h1.2 hfresh]
      simp

theorem appendMergeFirst_dict_fresh {cs : RCConfigs} {t : String}
    (h : assocLookup cs t = Option.none) (kvs : List (PyKey × PyVal))
    (hk : nodupKeys kvs = true) :
    appendMergeFirst cs t (PyVal.dict kvs) = (Option.none, cs ++ [(t, kvs)]) := by
  have hens : ensureTarget cs t = cs ++ [(t, [])] := by
    simp [ensureTarget, h, assocSet_append_fresh h]
  have hlook : assocLookup (cs ++ [(t, [])]) t = some ([] : List (PyKey × PyVal)) := by
    rw [assocLookup_append_none h]
    simp [assocLookup]
  have hupd : dictUpdate [] kvs = kvs := by
    simpa using dictUpdate_append_fresh kvs [] hk (by simp [assocLookup])
  simp only [appendMergeFirst, hens, hlook, Option.getD, hupd]
  rw [assocSet_append_last h]

theorem appendEntries_go : ∀ (entries : List (String × List (PyKey × PyVal)))
    (cs : RCConfigs),
    (entries.map Prod.fst).all (fun t => (assocLookup cs t).isNone) = true →
    (entries.map Prod.fst).Nodup →
    entries.all (fun e => nodupKeys e.2) = true →
    entries.foldl (fun cs e => (appendMergeFirst cs e.1 (PyVal.dict e.2)).2) cs
      = cs ++ entries
  | [], cs, _, _, _ => by simp
  | e :: entries, cs, h1, h2, h3 => by
      obtain ⟨t, kvs⟩ := e
      simp only [List.map_cons, List.all_cons, Bool.and_eq_true] at h1 h3
      rw [List.map_cons, List.nodup_cons] at h2
      have hfresh : assocLookup cs t = Option.none :=
        Option.isNone_iff_eq_none.mp (by simpa using h1.1)
      rw [List.foldl_cons]
      rw [show (appendMergeFirst cs t (PyVal.dict kvs)).2 = cs ++ [(t, kvs)] by
        rw [appendMergeFirst_dict_fresh hfresh kvs h3.1]]
      have h1rest : (entries.map Prod.fst).all
          (fun u => (assocLookup (cs ++ [(t, kvs)]) u).isNone) = true := by
        rw [List.all_eq_true] at h1 ⊢
        intro u hu
        have hum : assocLookup cs u = Option.none :=
          Option.isNone_iff_eq_none.mp (by simpa using h1.2 u hu)
        have hne : ¬(t = u) := fun hh => h2.1 (hh ▸ hu)
        rw [assocLookup_append_none hum]
        simp [assocLookup, hne]
      rw [appendEntries_go entries (cs ++ [(t, kvs)]) h1rest h2.2 h3.2]
      simp

/-- A sequence of dict-valued `append` calls for pairwise distinct targets,
starting from the initial empty state, leaves `_configs` holding exactly
those `(target, config)` entries in order. -/
theorem appendEntries_eq (entries : List (String × List (PyKey × PyVal)))
    (hdist : (entries.map Prod.fst).Nodup)
    (hkeys : entries.all (fun e => nodupKeys e.2) = true) :
    appendEntries entries = entries := by
  have := appendEntries_go entries [] (by simp [assocLookup]) hdist hkeys
  simpa [appendEntries] using this

/-! ### Claims C3, C4 -/

/-- C3 counterexample: two `append` calls with dict-valued configs for
distinct targets — `{"a": {}}` then `{"a": [1]}` — make `dispatch` perform
zero writes, not one: merging evaluates `config_result.get("a", []) +
[1]` with a dict accumulated for `"a"`, the `dict + list` `TypeError` is
swallowed by `dispatch`'s `except Exception`, and nothing is published.
(Both appends themselves succeed, so the sequence is within the claim's
scope.) -/
theorem mergeFirst_dispatch_zero_writes :
    (appendMergeFirst [] "t1" (PyVal.dict [(PyKey.str "a", PyVal.dict [])])).1
      = Option.none
    ∧ (appendMergeFirst (appendEntries [("t1", [(PyKey.str "a", PyVal.dict [])])])
        "t2" (PyVal.dict [(PyKey.str "a", PyVal.list [PyVal.int 1])])).1 = Option.none
    ∧ dispatchMergeFirst (appendEntries
        [("t1", [(PyKey.str "a", PyVal.dict [])]),
         ("t2", [(PyKey.str "a", PyVal.list [PyVal.int 1])])]) = [] :=
  ⟨rfl, rfl, rfl⟩

/-- C3 (amended): after dict-valued `append` calls for distinct targets,
provided no key receives a list-valued contribution after a dict-valued one
(otherwise the merge loop raises `dict + list` `TypeError` and the swallowed
exception suppresses the write), a single `dispatch()` writes the merged
result to the data connector exactly once, where each key's merged value is
the concatenation of its list contributions in target order, unless the key
had dict contributions, in which case it is the last target's dict
(`keySpec`). -/
theorem mergeFirst_merge_then_dispatch
    (entries : List (String × List (PyKey × PyVal)))
    (hdist : (entries.map Prod.fst).Nodup)
    (hkeys : entries.all (fun e => nodupKeys e.2) = true)
    (hcond : (allPairs entries).all
        (fun kv => noListAfterDict (valsFor kv.1 (allPairs entries))) = true) :
    ∃ r, dispatchMergeFirst (appendEntries entries) = [r]
      ∧ ∀ k, assocLookup r k = keySpec (valsFor k (allPairs entries)) := by
  have hA := appendEntries_eq entries hdist hkeys
  have key_ok : ∀ k, (valsFor k (allPairs entries)).foldlM mergeKeyStep Option.none
      = .ok (keySpec (valsFor k (allPairs entries))) := by
    intro k
    apply mergeKey_none
    by_cases hv : valsFor k (allPairs entries) = []
    · rw [hv]; rfl
    · have hfil : (allPairs entries).filter (fun kv => decide (kv.1 = k)) ≠ [] := by
        intro hh
        exact hv (by simp [valsFor, hh])
      obtain ⟨kv, hkv⟩ := List.exists_mem_of_ne_nil _ hfil
      rw [List.mem_filter] at hkv
      have hpk : kv.1 = k := of_decide_eq_true hkv.2
      rw [List.all_eq_true] at hcond
      have := hcond kv hkv.1
      rwa [hpk] at this
  rw [hA]
  cases hm : (allPairs entries).foldlM mergeStep ([] : List (PyKey × PyVal)) with
  | error e =>
      obtain ⟨k, hk⟩ := dispatch_err _ [] e hm
      rw [show assocLookup ([] : List (PyKey × PyVal)) k = Option.none from rfl,
        key_ok k] at hk
      cases hk
  | ok r =>
      refine ⟨r, by simp [dispatchMergeFirst, dispatchMerge, hm], fun k => ?_⟩
      have hp := dispatch_proj _ [] r hm k
      rw [show assocLookup ([] : List (PyKey × PyVal)) k = Option.none from rfl,
        key_ok k] at hp
      exact (Except.ok.injEq _ _).mp hp.symm

/-- Witness for `mergeFirst_merge_then_dispatch` on the claim's own
example: `{"a": [1]}` and `{"b": [2]}` appended for two targets dispatch as
`{"a": [1], "b": [2]}`, delivered exactly once. -/
theorem mergeFirst_merge_then_dispatch_witness :
    (∃ r, dispatchMergeFirst (appendEntries
        [("t1", [(PyKey.str "a", PyVal.list [PyVal.int 1])]),
         ("t2", [(PyKey.str "b", PyVal.list [PyVal.int 2])])]) = [r]
      ∧ ∀ k, assocLookup r k = keySpec (valsFor k (allPairs
          [("t1", [(PyKey.str "a", PyVal.list [PyVal.int 1])]),
           ("t2", [(PyKey.str "b", PyVal.list [PyVal.int 2])])])))
    ∧ dispatchMergeFirst (appendEntries
        [("t1", [(PyKey.str "a", PyVal.list [PyVal.int 1])]),
         ("t2", [(PyKey.str "b", PyVal.list [PyVal.int 2])])])
      = [[(PyKey.str "a", PyVal.list [PyVal.int 1]),
          (PyKey.str "b", PyVal.list [PyVal.int 2])]] :=
  ⟨mergeFirst_merge_then_dispatch _ (by decide) (by decide) (by decide), rfl⟩

/-- C4 counterexample: on the initial empty state, `append("t", 42)` raises
`ValueError` but does not leave the accumulator unchanged — the method's
first two lines have already created the empty entry for the target, so the
state after the failed call is `{"t": {}}`, not `{}`. -/
theorem mergeFirst_append_scalar_mutates :
    (appendMergeFirst [] "t" (PyVal.int 42)).1 = some "ValueError"
    ∧ (appendMergeFirst [] "t" (PyVal.int 42)).2 = [("t", [])]
    ∧ ([("t", [])] : RCConfigs) ≠ [] :=
  ⟨rfl, rfl, by simp⟩

/-- C4 (amended): `append(target, config)` with a config that is neither a
dict, `None`, nor the `False` removal sentinel raises `ValueError`; the
state after the failed call is the old state with an empty entry ensured
for the target (so it differs from the old state exactly when the target
was absent or empty), and that residue is invisible to `dispatch`: the
merged/published result is unchanged.  Inside `dispatch`, a merged field
value that is neither list- nor dict-valued is dropped (logged) without
raising. -/
theorem mergeFirst_scalar_rejected (cs : RCConfigs) (t : String) (v : PyVal)
    (hd : isDict v = false) (hn : v ≠ PyVal.none) (hf : v ≠ PyVal.bool false) :
    (appendMergeFirst cs t v).1 = some "ValueError"
    ∧ (appendMergeFirst cs t v).2 = ensureTarget cs t
    ∧ dispatchMergeFirst (ensureTarget cs t) = dispatchMergeFirst cs
    ∧ (∀ (acc : List (PyKey × PyVal)) (k : PyKey) (w : PyVal),
        isList w = false → isDict w = false → mergeStep acc (k, w) = .ok acc) := by
  refine ⟨?_, ?_, ?_, ?_⟩
  · cases v with
    | dict ds => simp [isDict] at hd
    | none => exact absurd rfl hn
    | bool b =>
        cases b with
        | false => exact absurd rfl hf
        | true => rfl
    | int n => rfl
    | str u => rfl
    | bytes b => rfl
    | list xs => rfl
  · cases v with
    | dict ds => simp [isDict] at hd
    | none => exact absurd rfl hn
    | bool b =>
        cases b with
        | false => exact absurd rfl hf
        | true => rfl
    | int n => rfl
    | str u => rfl
    | bytes b => rfl
    | list xs => rfl
  · have hall : allPairs (ensureTarget cs t) = allPairs cs := by
      rw [ensureTarget]
      by_cases he : ((assocLookup cs t).getD []).isEmpty = true
      · rw [if_pos he]
        cases hl : assocLookup cs t with
        | none =>
            rw [assocSet_append_fresh hl]
            simp [allPairs]
        | some d =>
            have hd0 : d = [] := by
              rw [hl] at he
              simpa [List.isEmpty_iff] using he
            rw [assocSet_eq_self (hd0 ▸ hl)]
      · rw [if_neg he]
    simp [dispatchMergeFirst, dispatchMerge, hall]
  · intro acc k w h1 h2
    cases w <;> simp_all [mergeStep, isList, isDict]

/-- Witness for `mergeFirst_scalar_rejected` at a concrete state and the
scalar config `True`. -/
theorem mergeFirst_scalar_rejected_witness :
    (appendMergeFirst [("u", [(PyKey.str "x", PyVal.int 7)])] "t" (PyVal.bool true)).1
      = some "ValueError"
    ∧ (appendMergeFirst [("u", [(PyKey.str "x", PyVal.int 7)])] "t" (PyVal.bool true)).2
      = ensureTarget [("u", [(PyKey.str "x", PyVal.int 7)])] "t"
    ∧ dispatchMergeFirst (ensureTarget [("u", [(PyKey.str "x", PyVal.int 7)])] "t")
      = dispatchMergeFirst [("u", [(PyKey.str "x", PyVal.int 7)])]
    ∧ (∀ (acc : List (PyKey × PyVal)) (k : PyKey) (w : PyVal),
        isList w = false → isDict w = false → mergeStep acc (k, w) = .ok acc) :=
  mergeFirst_scalar_rejected [("u", [(PyKey.str "x", PyVal.int 7)])] "t"
    (PyVal.bool true) rfl (by simp) (by simp)

/-! ## Remote-config path validation gate -/

/-- Modelled from the spec: `RemoteConfigClient._validate_config_exists_in_target_paths`
(`ddtrace/internal/remoteconfig/v2/client.py` is not under the shipped
sources; only its tests are).  Per §4.4, every referenced `client_config`
path must be present among the poll response's `target_files` paths OR in
the locally cached target file set; a path missing from both fails the
check with `RemoteConfigError`.  Arguments mirror the test's call shape:
the referenced paths, the paths of the response's target files, and the
paths of `cached_target_files`. -/
def validateConfigExistsInTargetPaths
    (clientConfigs targetFilePaths cachedPaths : List String) : Except String Unit :=
  if clientConfigs.all (fun p => targetFilePaths.contains p || cachedPaths.contains p) then
    .ok ()
  else
    .error "RemoteConfigError"

/-- Modelled from the spec: the poll cycle applies the referenced configs
only after the validation gate passes — a `RemoteConfigError` "aborts the
*entire* cycle", so on failure no referenced config at all is processed,
rather than skipping the single missing file. -/
def pollCycleValidated
    (clientConfigs targetFilePaths cachedPaths : List String) : List String :=
  match validateConfigExistsInTargetPaths clientConfigs targetFilePaths cachedPaths with
  | .ok _ => clientConfigs
  | .error _ => []

/-- C5: the validation gate raises `RemoteConfigError` if and only if some
referenced path is present neither among the response's target-file paths
nor in the local cache; when every referenced path is covered it returns
normally; and a raise aborts the entire cycle (nothing is applied) rather
than skipping one file. -/
theorem validate_raises_iff_missing (ccs tfs cache : List String) :
    (validateConfigExistsInTargetPaths ccs tfs cache = .error "RemoteConfigError"
      ↔ ∃ p ∈ ccs, p ∉ tfs ∧ p ∉ cache)
    ∧ ((∀ p ∈ ccs, p ∈ tfs ∨ p ∈ cache) →
        validateConfigExistsInTargetPaths ccs tfs cache = .ok ())
    ∧ (validateConfigExistsInTargetPaths ccs tfs cache = .error "RemoteConfigError" →
        pollCycleValidated ccs tfs cache = []) := by
  have hmem : ∀ p : String,
      (tfs.contains p || cache.contains p) = true ↔ (p ∈ tfs ∨ p ∈ cache) := by
    intro p
    simp [List.contains, List.elem_iff]
  by_cases h : ccs.all (fun p => tfs.contains p || cache.contains p) = true
  · have hcov : ∀ p ∈ ccs, p ∈ tfs ∨ p ∈ cache :=
      fun p hp => (hmem p).mp (List.all_eq_true.mp h p hp)
    have hok : validateConfigExistsInTargetPaths ccs tfs cache = .ok () := by
      rw [validateConfigExistsInTargetPaths, if_pos h]
    refine ⟨⟨fun he => ?_, fun ⟨p, hp, h1, h2⟩ => ?_⟩, fun _ => hok, fun he => ?_⟩
    · rw [hok] at he; cases he
    · cases hcov p hp with
      | inl hh => exact absurd hh h1
      | inr hh => exact absurd hh h2
    · rw [hok] at he; cases he
  · have herr : validateConfigExistsInTargetPaths ccs tfs cache
        = .error "RemoteConfigError" := by
      rw [validateConfigExistsInTargetPaths, if_neg h]
    have hex : ∃ p ∈ ccs, p ∉ tfs ∧ p ∉ cache := by
      by_contra hno
      push_neg at hno
      exact h (List.all_eq_true.mpr (fun p hp =>
        (hmem p).mpr (or_iff_not_imp_left.mpr (hno p hp))))
    refine ⟨⟨fun _ => hex, fun _ => herr⟩, fun hcov => ?_,
      fun _ => by simp [pollCycleValidated, herr]⟩
    exact absurd (List.all_eq_true.mpr (fun p hp => (hmem p).mpr (hcov p hp))) h

/-- Witness for `validate_raises_iff_missing`, replaying two rows of the
source tests: a cached-only path passes, a path absent from both raises. -/
theorem validate_raises_iff_missing_witness :
    validateConfigExistsInTargetPaths ["target/path/1"] [] ["target/path/1"]
      = .ok ()
    ∧ validateConfigExistsInTargetPaths ["target/path/6"]
        ["target/path/0", "target/path/1", "target/path/2"] []
      = .error "RemoteConfigError" :=
  ⟨(validate_raises_iff_missing _ _ _).2.1 (by decide),
   (validate_raises_iff_missing _ _ _).1.mpr
     ⟨"target/path/6", by decide, by decide, by decide⟩⟩

/-! ## AppSec span processor (`ddtrace/appsec/processor.py`) -/

/-- A value of the normalized header mapping: a single value, or the
ordered list a repeated header name accumulates. -/
inductive HVal where
  | single (s : String)
  | multi (xs : List String)
deriving DecidableEq, Repr

/-- `_transform_headers(data)`: iterate the `(header, value)` pairs (a dict
input iterates `data.items()`, i.e. its pairs in insertion order with
unique names), lowercase the name, skip `cookie` and `set-cookie`, and on a
repeated lowercased name turn the entry into the ordered list of all its
values (`[existing, value]`, then in-place `append`). -/
def transformHeaders (pairs : List (String × String)) : List (String × HVal) :=
  pairs.foldl (fun normalized hv =>
    if hv.1.toLower = "cookie" ∨ hv.1.toLower = "set-cookie" then normalized
    else
      match assocLookup normalized hv.1.toLower with
      | some (HVal.single s) =>
          assocSet normalized hv.1.toLower (HVal.multi [s, hv.2])
      | some (HVal.multi xs) =>
          assocSet normalized hv.1.toLower (HVal.multi (xs ++ [hv.2]))
      | Option.none => normalized ++ [(hv.1.toLower, HVal.single hv.2)]
  ) []

/-- The values carried by one lowercased header name, in input order. -/
def headerValuesFor (l : String) (pairs : List (String × String)) : List String :=
  (pairs.filter (fun hv => decide (hv.1.toLower = l))).map Prod.snd

/-- Written from the claim's words, for comparison with `transformHeaders`:
cookie and set-cookie carry nothing; a name occurring once maps to its
single value; a name occurring more than once maps to the ordered list of
all its values. -/
def headerSpecValue (l : String) (pairs : List (String × String)) : Option HVal :=
  if l = "cookie" ∨ l = "set-cookie" then Option.none
  else
    match headerValuesFor l pairs with
    | [] => Option.none
    | [v] => some (HVal.single v)
    | vs => some (HVal.multi vs)

/-- Folding further values onto one name's current entry. -/
def headerCombine : Option HVal → List String → Option HVal
  | cur, [] => cur
  | Option.none, v :: vs => headerCombine (some (.single v)) vs
  | some (.single s), v :: vs => headerCombine (some (.multi [s, v])) vs
  | some (.multi xs), v :: vs => headerCombine (some (.multi (xs ++ [v]))) vs

theorem assocLookup_append_single_ne {κ α : Type} [DecidableEq κ]
    (m : List (κ × α)) {h l : κ} (hne : ¬(h = l)) (x : α) :
    assocLookup (m ++ [(h, x)]) l = assocLookup m l := by
  induction m with
  | nil => simp [assocLookup, hne]
  | cons kv m ih =>
      obtain ⟨k2, w⟩ := kv
      by_cases h2 : k2 = l
      · subst h2; simp [assocLookup]
      · simp [assocLookup, h2, ih]

theorem headerCombine_multi (xs : List String) : ∀ vs : List String,
    headerCombine (some (HVal.multi xs)) vs = some (HVal.multi (xs ++ vs))
  | [] => by simp [headerCombine]
  | v :: vs => by
      rw [headerCombine, headerCombine_multi (xs ++ [v]) vs]
      simp

theorem headerCombine_single (s : String) (vs : List String) :
    headerCombine (some (HVal.single s)) vs
      = match vs with
        | [] => some (HVal.single s)
        | _ => some (HVal.multi (s :: vs)) := by
  cases vs with
  | nil => rfl
  | cons v vs => rw [headerCombine, headerCombine_multi]; rfl

theorem transformHeaders_go :
    ∀ (pairs : List (String × String)) (acc : List (String × HVal)) (l : String),
    ¬(l = "cookie" ∨ l = "set-cookie") →
    assocLookup (pairs.foldl (fun normalized hv =>
      if hv.1.toLower = "cookie" ∨ hv.1.toLower = "set-cookie" then normalized
      else
        match assocLookup normalized hv.1.toLower with
        | some (HVal.single s) =>
            assocSet normalized hv.1.toLower (HVal.multi [s, hv.2])
        | some (HVal.multi xs) =>
            assocSet normalized hv.1.toLower (HVal.multi (xs ++ [hv.2]))
        | Option.none => normalized ++ [(hv.1.toLower, HVal.single hv.2)]) acc) l
      = headerCombine (assocLookup acc l) (headerValuesFor l pairs)
  | [], acc, l, _ => by simp [headerValuesFor, headerCombine]
  | hv :: pairs, acc, l, hl => by
      rw [List.foldl_cons]
      by_cases hc : hv.1.toLower = "cookie" ∨ hv.1.toLower = "set-cookie"
      · rw [if_pos hc]
        have hne : ¬(hv.1.toLower = l) := by
          intro hh
          exact hl (hh ▸ hc)
        rw [transformHeaders_go pairs acc l hl]
        simp [headerValuesFor, List.filter_cons, hne]
      · rw [if_neg hc]
        by_cases hk : hv.1.toLower = l
        · cases hlk : assocLookup acc (hv.1.toLower) with
          | none =>
              rw [transformHeaders_go pairs _ l hl]
              rw [show assocLookup (acc ++ [(hv.1.toLower, HVal.single hv.2)]) l
                  = some (HVal.single hv.2) by
                rw [hk, ← hk, assocLookup_append_none (hk ▸ hlk)]
                simp [assocLookup, hk]]
              rw [hk] at hlk
              simp [headerValuesFor, List.filter_cons, hk, hlk, headerCombine]
          | some w =>
              cases w with
              | single s₀ =>
                  rw [transformHeaders_go pairs _ l hl]
                  rw [hk, assocLookup_assocSet_self]
                  rw [hk] at hlk
                  simp [headerValuesFor, List.filter_cons, hk, hlk, headerCombine]
              | multi xs =>
                  rw [transformHeaders_go pairs _ l hl]
                  rw [hk, assocLookup_assocSet_self]
                  rw [hk] at hlk
                  simp [headerValuesFor, List.filter_cons, hk, hlk, headerCombine]
        · cases hlk : assocLookup acc (hv.1.toLower) with
          | none =>
              rw [transformHeaders_go pairs _ l hl]
              rw [assocLookup_append_single_ne _ hk]
              simp [headerValuesFor, List.filter_cons, hk]
          | some w =>
              cases w with
              | single s₀ =>
                  rw [transformHeaders_go pairs _ l hl]
                  rw [assocLookup_assocSet_ne _ _ _ _ hk]
                  simp [headerValuesFor, List.filter_cons, hk]
              | multi xs =>
                  rw [transformHeaders_go pairs _ l hl]
                  rw [assocLookup_assocSet_ne _ _ _ _ hk]
                  simp [headerValuesFor, List.filter_cons, hk]

/-- C8: `_transform_headers` is fully characterized key by key — looking up
any name `l` in the result gives: nothing for `cookie`/`set-cookie`;
nothing if no input header lowers to `l`; the single value if exactly one
does; the ordered list of all the values, in input order, if several do.
In particular every key of the result is the lowercased name of some input
header and the cookie headers are absent. -/
theorem transformHeaders_go_cookie :
    ∀ (pairs : List (String × String)) (acc : List (String × HVal)) (l : String),
    (l = "cookie" ∨ l = "set-cookie") →
    assocLookup acc l = Option.none →
    assocLookup (pairs.foldl (fun normalized hv =>
      if hv.1.toLower = "cookie" ∨ hv.1.toLower = "set-cookie" then normalized
      else
        match assocLookup normalized hv.1.toLower with
        | some (HVal.single s) =>
            assocSet normalized hv.1.toLower (HVal.multi [s, hv.2])
        | some (HVal.multi xs) =>
            assocSet normalized hv.1.toLower (HVal.multi (xs ++ [hv.2]))
        | Option.none => normalized ++ [(hv.1.toLower, HVal.single hv.2)]) acc) l
      = Option.none
  | [], _, _, _, hacc => hacc
  | hv :: pairs, acc, l, hl, hacc => by
      rw [List.foldl_cons]
      by_cases hc : hv.1.toLower = "cookie" ∨ hv.1.toLower = "set-cookie"
      · rw [if_pos hc]
        exact transformHeaders_go_cookie pairs acc l hl hacc
      · rw [if_neg hc]
        have hne : ¬(hv.1.toLower = l) := by
          intro hh
          exact hc (hh ▸ hl)
        cases hlk : assocLookup acc (hv.1.toLower) with
        | none =>
            refine transformHeaders_go_cookie pairs _ l hl ?_
            rw [assocLookup_append_single_ne _ hne]
            exact hacc
        | some w =>
            cases w with
            | single s₀ =>
                refine transformHeaders_go_cookie pairs _ l hl ?_
                rw [assocLookup_assocSet_ne _ _ _ _ hne]
                exact hacc
            | multi xs =>
                refine transformHeaders_go_cookie pairs _ l hl ?_
                rw [assocLookup_assocSet_ne _ _ _ _ hne]
                exact hacc

/-- C8: `_transform_headers` is fully characterized key by key — looking up
any name `l` in the result gives: nothing for `cookie`/`set-cookie`;
nothing if no input header lowers to `l`; the single value if exactly one
does; the ordered list of all the values, in input order, if several do.
In particular every key of the result is the lowercased name of some input
header and the cookie headers are absent. -/
theorem transform_headers_characterization
    (pairs : List (String × String)) (l : String) :
    assocLookup (transformHeaders pairs) l = headerSpecValue l pairs := by
  rw [headerSpecValue]
  by_cases hl : l = "cookie" ∨ l = "set-cookie"
  · rw [if_pos hl]
    exact transformHeaders_go_cookie pairs [] l hl rfl
  · rw [if_neg hl]
    rw [transformHeaders, transformHeaders_go pairs [] l hl]
    rw [show assocLookup ([] : List (String × HVal)) l = Option.none from rfl]
    cases hv : headerValuesFor l pairs with
    | nil => rfl
    | cons v vs =>
        rw [headerCombine, headerCombine_single]
        cases vs <;> rfl

/-! ### AppSec span processor decision logic -/

/-- Modelled from the spec: tag/metric name constants imported from
`ddtrace.constants` (not under the shipped sources).  Only their
distinctness from the literal event tags matters to the claims. -/
def APPSEC_ENABLED : String := "_dd.appsec.enabled"

/-- `ddtrace.constants.APPSEC_JSON` -/
def APPSEC_JSON : String := "_dd.appsec.json"

/-- `ddtrace.constants.APPSEC_EVENT_RULE_VERSION` -/
def APPSEC_EVENT_RULE_VERSION : String := "_dd.appsec.event_rules.version"

/-- `ddtrace.constants.APPSEC_EVENT_RULE_ERRORS` -/
def APPSEC_EVENT_RULE_ERRORS : String := "_dd.appsec.event_rules.errors"

/-- `ddtrace.constants.APPSEC_EVENT_RULE_LOADED` -/
def APPSEC_EVENT_RULE_LOADED : String := "_dd.appsec.event_rules.loaded"

/-- `ddtrace.constants.APPSEC_EVENT_RULE_ERROR_COUNT` -/
def APPSEC_EVENT_RULE_ERROR_COUNT : String := "_dd.appsec.event_rules.error_count"

/-- `ddtrace.constants.APPSEC_WAF_DURATION` -/
def APPSEC_WAF_DURATION : String := "_dd.appsec.waf.duration"

/-- `ddtrace.constants.APPSEC_WAF_DURATION_EXT` -/
def APPSEC_WAF_DURATION_EXT : String := "_dd.appsec.waf.duration_ext"

/-- `ddtrace.constants.APPSEC_WAF_VERSION` -/
def APPSEC_WAF_VERSION : String := "_dd.appsec.waf.version"

/-- `ddtrace.constants.APPSEC_ORIGIN_VALUE` -/
def APPSEC_ORIGIN_VALUE : String := "appsec"

/-- `ddtrace.constants.MANUAL_KEEP_KEY` -/
def MANUAL_KEEP_KEY : String := "manual.keep"

/-- `ddtrace.constants.ORIGIN_KEY` -/
def ORIGIN_KEY : String := "_dd.origin"

/-- `ddtrace.constants.RUNTIME_FAMILY` -/
def RUNTIME_FAMILY : String := "_dd.runtime_family"

/-- `ddtrace.ext.SpanTypes.WEB` -/
def SpanTypes_WEB : String := "web"

/-- `_Addresses.SERVER_REQUEST_BODY` -/
def Addr_body : String := "server.request.body"

/-- `_Addresses.SERVER_REQUEST_QUERY` -/
def Addr_query : String := "server.request.query"

/-- `_Addresses.SERVER_REQUEST_HEADERS_NO_COOKIES` -/
def Addr_req_headers : String := "server.request.headers.no_cookies"

/-- `_Addresses.SERVER_REQUEST_URI_RAW` -/
def Addr_uri : String := "server.request.uri.raw"

/-- `_Addresses.SERVER_REQUEST_METHOD` -/
def Addr_method : String := "server.request.method"

/-- `_Addresses.SERVER_REQUEST_PATH_PARAMS` -/
def Addr_path_params : String := "server.request.path_params"

/-- `_Addresses.SERVER_REQUEST_COOKIES` -/
def Addr_cookies : String := "server.request.cookies"

/-- `_Addresses.HTTP_CLIENT_IP` -/
def Addr_client_ip : String := "http.client_ip"

/-- `_Addresses.SERVER_RESPONSE_STATUS` -/
def Addr_resp_status : String := "server.response.status"

/-- `_Addresses.SERVER_RESPONSE_HEADERS_NO_COOKIES` -/
def Addr_resp_headers : String := "server.response.headers.no_cookies"

/-- `_COLLECTED_REQUEST_HEADERS` -/
def COLLECTED_REQUEST_HEADERS : List String :=
  ["accept", "accept-encoding", "accept-language", "content-encoding",
   "content-language", "content-length", "content-type", "forwarded",
   "forwarded-for", "host", "true-client-ip", "user-agent", "via",
   "x-client-ip", "x-cluster-client-ip", "x-forwarded", "x-forwarded-for",
   "x-real-ip"]

/-- The result object of `DDWaf.run` as consumed by the processor: `data`
(the serialized triggers, `None` when nothing matched), `actions`,
`runtime` and `total_runtime`.  The WAF engine itself lives behind the
foreign-function boundary; the processor theorems take the run function as
an oracle parameter. -/
structure WafResult where
  data : Option String
  actions : List String
  runtime : Nat
  total_runtime : Nat

/-- The `DDWaf.info` object: per-rule errors, ruleset version string, and
loaded/failed counters. -/
structure WafInfo where
  errors : List (String × String)
  version : String
  loaded : Nat
  failed : Nat

/-- A value stored in the address-keyed data set handed to the WAF. -/
inductive DataVal where
  | pv (v : PyVal)
  | s (v : String)
  | hdrs (h : List (String × HVal))

/-- The `_context` items of one request that the processor reads and
writes (`_context.get_item` of a missing item returns `None`, so a field
holding `Option.none` covers both "absent" and "set to None"). -/
structure AppSecCtx where
  reqQuery : Option PyVal := Option.none
  reqHeaders : Option (List (String × String)) := Option.none
  headersCaseSensitive : Option Bool := Option.none
  reqUri : Option PyVal := Option.none
  reqMethod : Option PyVal := Option.none
  reqPathParams : Option PyVal := Option.none
  reqCookies : Option PyVal := Option.none
  respStatus : Option PyVal := Option.none
  respHeaders : Option (List (String × String)) := Option.none
  reqBody : Option PyVal := Option.none
  remoteIp : Option String := Option.none
  blocked : Option Bool := Option.none
  wafJson : Option String := Option.none
  wafDuration : Option Nat := Option.none
  wafDurationExt : Option Nat := Option.none
  wafActions : Option (List String) := Option.none

/-- One tag or metric write on the span. -/
inductive SpanOp where
  | setMetric (k : String) (v : Int)
  | setTagStr (k v : String)
  | setTag (k : String) (v : PyVal)

/-- The tag/metric name an operation writes. -/
def opKey : SpanOp → String
  | .setMetric k _ => k
  | .setTagStr k _ => k
  | .setTag k _ => k

/-- `span.set_tag` value for a normalized header entry. -/
def hvalToPy : HVal → PyVal
  | .single s => .str s
  | .multi xs => .list (xs.map PyVal.str)

/-- `span.set_tag` value for a context item that may be `None`. -/
def optStrToPy : Option String → PyVal
  | some s => .str s
  | Option.none => .none

/-- Modelled from the spec: `_normalize_tag_name(kind, name)` from
`ddtrace.contrib.trace_utils` (not under the shipped sources) — the header
snapshot tag `http.<kind>.headers.<name lowercased>`. -/
def normalizeTagName (kind k : String) : String :=
  "http." ++ kind ++ ".headers." ++ k.toLower

/-- `_set_headers(span, headers, kind)`: one `set_tag` per collected header
name present in the normalized mapping. -/
def setHeadersOps (kind : String) (headers : List (String × HVal)) : List SpanOp :=
  headers.filterMap (fun kv =>
    if COLLECTED_REQUEST_HEADERS.contains kv.1.toLower then
      some (SpanOp.setTag (normalizeTagName kind kv.1) (hvalToPy kv.2))
    else Option.none)

/-- Placeholder serialization of the rule-error dict (`json.dumps`); the
claims only concern which tags are set, never this string's exact shape. -/
def jsonDumpsErrors (errors : List (String × String)) : String :=
  String.intercalate "," (errors.map (fun kv => kv.1 ++ ":" ++ kv.2))

/-- The security-event payload string `'\x7b"triggers":%s\x7d' % (res,)`. -/
def jsonTriggers (s : String) : String :=
  "\x7b\"triggers\":" ++ s ++ "\x7d"

/-- The data set assembled by `on_span_finish` (lines 270-319): for each
address both declared as needed and present among the context items, one
entry in source order; header items pass through `_transform_headers`, and
the client IP is included only when truthy. -/
def assembleData (needed : List String) (ctx : AppSecCtx) : List (String × DataVal) :=
  (if needed.contains Addr_query then
    match ctx.reqQuery with
    | some q => [(Addr_query, DataVal.pv q)]
    | Option.none => []
   else [])
  ++ (if needed.contains Addr_req_headers then
    match ctx.reqHeaders with
    | some h => [(Addr_req_headers, DataVal.hdrs (transformHeaders h))]
    | Option.none => []
   else [])
  ++ (if needed.contains Addr_uri then
    match ctx.reqUri with
    | some u => [(Addr_uri, DataVal.pv u)]
    | Option.none => []
   else [])
  ++ (if needed.contains Addr_method then
    match ctx.reqMethod with
    | some m => [(Addr_method, DataVal.pv m)]
    | Option.none => []
   else [])
  ++ (if needed.contains Addr_path_params then
    match ctx.reqPathParams with
    | some m => [(Addr_path_params, DataVal.pv m)]
    | Option.none => []
   else [])
  ++ (if needed.contains Addr_cookies then
    match ctx.reqCookies with
    | some m => [(Addr_cookies, DataVal.pv m)]
    | Option.none => []
   else [])
  ++ (if needed.contains Addr_resp_status then
    match ctx.respStatus with
    | some m => [(Addr_resp_status, DataVal.pv m)]
    | Option.none => []
   else [])
  ++ (if needed.contains Addr_resp_headers then
    match ctx.respHeaders with
    | some h => [(Addr_resp_headers, DataVal.hdrs (transformHeaders h))]
    | Option.none => []
   else [])
  ++ (if needed.contains Addr_body then
    match ctx.reqBody with
    | some m => [(Addr_body, DataVal.pv m)]
    | Option.none => []
   else [])
  ++ (if needed.contains Addr_client_ip then
    match ctx.remoteIp with
    | some ip => if ip.isEmpty then [] else [(Addr_client_ip, DataVal.s ip)]
    | Option.none => []
   else [])

/-- The tags and metrics `on_span_finish` writes before the rate-limiter
check (lines 267-268 and the metrics block of lines 334-345): the enabled
metric and runtime family, the rule errors/version and WAF version tags,
the loaded/failed metrics, and — only when the request was not pre-decided
blocked — the WAF duration metrics. -/
def appsecBaseOps (info : WafInfo) (wafVersion : String) (blockedRequest : Bool)
    (totalRuntime totalOverall : Nat) : List SpanOp :=
  [SpanOp.setMetric APPSEC_ENABLED 1, SpanOp.setTagStr RUNTIME_FAMILY "python"]
  ++ (if info.errors ≠ [] then
        [SpanOp.setTagStr APPSEC_EVENT_RULE_ERRORS (jsonDumpsErrors info.errors)]
      else [])
  ++ [SpanOp.setTagStr APPSEC_EVENT_RULE_VERSION info.version,
      SpanOp.setTagStr APPSEC_WAF_VERSION wafVersion,
      SpanOp.setMetric APPSEC_EVENT_RULE_LOADED (Int.ofNat info.loaded),
      SpanOp.setMetric APPSEC_EVENT_RULE_ERROR_COUNT (Int.ofNat info.failed)]
  ++ (if blockedRequest = false then
        [SpanOp.setMetric APPSEC_WAF_DURATION (Int.ofNat totalRuntime),
         SpanOp.setMetric APPSEC_WAF_DURATION_EXT (Int.ofNat totalOverall)]
      else [])

/-- The event-recording writes performed once the rate limiter allows
(lines 358-385): header snapshots for request/response when present in the
assembled data, the security-event payload (for a pre-decided request the
stored `waf_json` is set through `set_tag`, twice, plus `appsec.blocked`),
the `appsec.event` tag, `actor.ip` when truthy, the manual-keep tag, and
the origin tag when none is set yet. -/
def appsecEventOps (data : List (String × DataVal)) (blockedRequest : Bool)
    (res : Option String) (ctx : AppSecCtx) (originTag : Option String) : List SpanOp :=
  (match assocLookup data Addr_req_headers with
   | some (DataVal.hdrs h) => setHeadersOps "request" h
   | _ => [])
  ++ (match assocLookup data Addr_resp_headers with
      | some (DataVal.hdrs h) => setHeadersOps "response" h
      | _ => [])
  ++ (if blockedRequest = false then
        [SpanOp.setTagStr APPSEC_JSON (jsonTriggers (res.getD ""))]
      else
        [SpanOp.setTag APPSEC_JSON (optStrToPy ctx.wafJson),
         SpanOp.setTag APPSEC_JSON (optStrToPy ctx.wafJson),
         SpanOp.setTag "appsec.blocked" (PyVal.bool true)])
  ++ [SpanOp.setTagStr "appsec.event" "true"]
  ++ (match ctx.remoteIp with
      | some ip => if ip.isEmpty then [] else [SpanOp.setTagStr "actor.ip" ip]
      | Option.none => [])
  ++ [SpanOp.setTag MANUAL_KEEP_KEY PyVal.none]
  ++ (if originTag = Option.none then
        [SpanOp.setTagStr ORIGIN_KEY APPSEC_ORIGIN_VALUE]
      else [])

/-- The per-span inputs of `on_span_finish` that live on the span itself:
its type, its current `ORIGIN_KEY` tag, and the rate limiter's
`is_allowed(span.start_ns)` answer for it. -/
structure SpanFinishArgs where
  spanType : Option String := Option.none
  originTag : Option String := Option.none
  allowed : Bool := true

/-- `AppSecSpanProcessor.on_span_finish`: returns the span writes performed
and the number of WAF invocations made.  A non-web span returns
immediately; otherwise the data set is assembled, the WAF is run unless the
request was pre-decided blocked (in which case the stored durations are
read back and `res` stays `None`), the pre-limiter tags/metrics are set,
and if the evaluation matched or the request was blocked, the rate limiter
decides whether the event-recording writes happen. -/
def onSpanFinish (needed : List String) (info : WafInfo) (wafVersion : String)
    (wafRun : List (String × DataVal) → WafResult)
    (a : SpanFinishArgs) (ctx : AppSecCtx) : List SpanOp × Nat :=
  if a.spanType ≠ some SpanTypes_WEB then ([], 0)
  else
    let data := assembleData needed ctx
    let blockedRequest := ctx.blocked.getD false
    let res := if blockedRequest = false then (wafRun data).data else Option.none
    let totalRuntime :=
      if blockedRequest = false then (wafRun data).runtime else ctx.wafDuration.getD 0
    let totalOverall :=
      if blockedRequest = false then (wafRun data).total_runtime
      else ctx.wafDurationExt.getD 0
    let nCalls := if blockedRequest = false then 1 else 0
    let base := appsecBaseOps info wafVersion blockedRequest totalRuntime totalOverall
    if res.isSome || blockedRequest then
      if a.allowed = false then (base, nCalls)
      else (base ++ appsecEventOps data blockedRequest res ctx a.originTag, nCalls)
    else (base, nCalls)

/-- The keyword inputs of `on_span_start`. -/
structure SpanStartArgs where
  peerIp : Option String := Option.none
  headers : List (String × String) := []
  headersCaseSensitive : Bool := false

/-- `AppSecSpanProcessor.on_span_start`: stores the raw headers in the
context; when appsec is enabled and a peer IP or headers are given, stores
the resolved client IP (`_get_request_header_client_ip` is an external
collaborator, passed in as `clientIp`), and if the IP is truthy and
declared needed, runs a narrow WAF evaluation on it; a match whose actions
contain `"block"` stores the early result (`waf_json`, durations, actions)
and marks the request blocked.  Returns the updated context and the number
of WAF invocations made. -/
def onSpanStart (appsecEnabled : Bool) (needed : List String)
    (clientIp : Option String)
    (wafRun : List (String × DataVal) → WafResult)
    (a : SpanStartArgs) (ctx : AppSecCtx) : AppSecCtx × Nat :=
  let ctx1 := { ctx with
    reqHeaders := some a.headers,
    headersCaseSensitive := some a.headersCaseSensitive }
  if appsecEnabled ∧ ((match a.peerIp with
      | some p => !(p.isEmpty)
      | Option.none => false) = true ∨ a.headers ≠ []) then
    let ctx2 := { ctx1 with remoteIp := clientIp }
    match clientIp with
    | some ip =>
        if !(ip.isEmpty) ∧ needed.contains Addr_client_ip then
          let r := wafRun [(Addr_client_ip, DataVal.s ip)]
          if r.actions ≠ [] ∧ r.actions.contains "block" then
            ({ ctx2 with
                wafJson := some (jsonTriggers (r.data.getD "")),
                wafDuration := some r.runtime,
                wafDurationExt := some r.total_runtime,
                wafActions := some r.actions,
                blocked := some true }, 1)
          else (ctx2, 1)
        else (ctx2, 0)
    | Option.none => (ctx2, 0)
  else (ctx1, 0)

/-! ### Claims C6, C7, C10 -/

/-- The tag/metric names `on_span_finish` can write before the rate-limiter
check. -/
def appsecPreKeys : List String :=
  [APPSEC_ENABLED, RUNTIME_FAMILY, APPSEC_EVENT_RULE_ERRORS,
   APPSEC_EVENT_RULE_VERSION, APPSEC_WAF_VERSION, APPSEC_EVENT_RULE_LOADED,
   APPSEC_EVENT_RULE_ERROR_COUNT, APPSEC_WAF_DURATION, APPSEC_WAF_DURATION_EXT]

theorem appsecBaseOps_keys (info : WafInfo) (wafVersion : String)
    (b : Bool) (tr te : Nat) :
    ∀ k ∈ (appsecBaseOps info wafVersion b tr te).map opKey, k ∈ appsecPreKeys := by
  intro k hk
  by_cases he : info.errors = [] <;> cases b <;>
    simp [appsecBaseOps, he, opKey, appsecPreKeys] at hk ⊢ <;> tauto

/-- A metric write of one of the two WAF duration metrics. -/
def isDurationMetric : SpanOp → Bool
  | .setMetric k _ => k == APPSEC_WAF_DURATION || k == APPSEC_WAF_DURATION_EXT
  | _ => false

/-- A `span.set_tag` write (as opposed to `set_tag_str`/`set_metric`):
header snapshots, the blocked-request json, `appsec.blocked` and the
manual-keep mark are all written through `set_tag`. -/
def isSetTag : SpanOp → Bool
  | .setTag _ _ => true
  | _ => false

theorem appsecBaseOps_no_setTag (info : WafInfo) (wafVersion : String)
    (b : Bool) (tr te : Nat) :
    (appsecBaseOps info wafVersion b tr te).all (fun op => !(isSetTag op)) = true := by
  by_cases he : info.errors = [] <;> cases b <;>
    simp [appsecBaseOps, he, isSetTag]

/-- In the blocked case the pre-limiter block writes no duration metric. -/
theorem appsecBaseOps_blocked_no_duration (info : WafInfo) (wafVersion : String)
    (tr te : Nat) :
    (appsecBaseOps info wafVersion true tr te).all
      (fun op => !(isDurationMetric op)) = true := by
  by_cases he : info.errors = [] <;>
    simp [appsecBaseOps, he, isDurationMetric, APPSEC_ENABLED,
      APPSEC_EVENT_RULE_LOADED, APPSEC_EVENT_RULE_ERROR_COUNT,
      APPSEC_WAF_DURATION, APPSEC_WAF_DURATION_EXT]

/-- The event-recording block never writes a duration metric: header
snapshots and the blocked-request payload go through `set_tag`, the rest
are string tags. -/
theorem appsecEventOps_no_duration (data : List (String × DataVal)) (b : Bool)
    (res : Option String) (ctx : AppSecCtx) (o : Option String) :
    (appsecEventOps data b res ctx o).all (fun op => !(isDurationMetric op)) = true := by
  rw [List.all_eq_true]
  intro op hop
  simp only [Bool.not_eq_true']
  rw [appsecEventOps] at hop
  simp only [List.mem_append] at hop
  have hhdr : ∀ (kind : String) (h : List (String × HVal)),
      op ∈ setHeadersOps kind h → isDurationMetric op = false := by
    intro kind h hmem
    rw [setHeadersOps, List.mem_filterMap] at hmem
    obtain ⟨kv, _, hkv⟩ := hmem
    by_cases hc : COLLECTED_REQUEST_HEADERS.contains kv.1.toLower = true
    · rw [if_pos hc] at hkv
      cases hkv
      rfl
    · rw [if_neg hc] at hkv
      cases hkv
  rcases hop with ((((((h | h) | h) | h) | h) | h) | h)
  · cases hA : assocLookup data Addr_req_headers with
    | none => rw [hA] at h; simp at h
    | some w =>
        rw [hA] at h
        cases w with
        | hdrs hh => exact hhdr _ _ h
        | pv v => simp at h
        | s v => simp at h
  · cases hA : assocLookup data Addr_resp_headers with
    | none => rw [hA] at h; simp at h
    | some w =>
        rw [hA] at h
        cases w with
        | hdrs hh => exact hhdr _ _ h
        | pv v => simp at h
        | s v => simp at h
  · cases b with
    | false =>
        simp at h
        subst h
        rfl
    | true =>
        simp at h
        rcases h with h | h <;> subst h <;> rfl
  · simp only [List.mem_singleton] at h
    subst h
    rfl
  · cases hip : ctx.remoteIp with
    | none => rw [hip] at h; simp at h
    | some ip =>
        rw [hip] at h
        by_cases hie : ip.isEmpty = true
        · simp [hie] at h
        · simp [hie] at h
          subst h
          rfl
  · simp only [List.mem_singleton] at h
    subst h
    rfl
  · by_cases ho : o = Option.none
    · rw [if_pos ho] at h
      simp only [List.mem_singleton] at h
      subst h
      rfl
    · rw [if_neg ho] at h
      simp at h

/-- The rate-limiter-denied run of `on_span_finish` on a matching web
request: exactly the pre-limiter writes happen. -/
theorem onSpanFinish_denied (needed : List String) (info : WafInfo)
    (wafVersion : String) (wafRun : List (String × DataVal) → WafResult)
    (a : SpanFinishArgs) (ctx : AppSecCtx)
    (hweb : a.spanType = some SpanTypes_WEB)
    (hmatch : (wafRun (assembleData needed ctx)).data.isSome = true
      ∨ ctx.blocked.getD false = true)
    (hdeny : a.allowed = false) :
    onSpanFinish needed info wafVersion wafRun a ctx
      = (appsecBaseOps info wafVersion (ctx.blocked.getD false)
          (if ctx.blocked.getD false = false
            then (wafRun (assembleData needed ctx)).runtime
            else ctx.wafDuration.getD 0)
          (if ctx.blocked.getD false = false
            then (wafRun (assembleData needed ctx)).total_runtime
            else ctx.wafDurationExt.getD 0),
         if ctx.blocked.getD false = false then 1 else 0) := by
  rw [onSpanFinish, if_neg (by simp [hweb])]
  cases hb : ctx.blocked.getD false with
  | true => simp [hb, hdeny]
  | false =>
      rcases hmatch with hm | hm
      · simp [hb, hdeny, hm]
      · rw [hb] at hm
        cases hm

/-- The rate-limiter-allowed run of `on_span_finish` on a matching web
request: the pre-limiter writes followed by the event-recording writes. -/
theorem onSpanFinish_allowed (needed : List String) (info : WafInfo)
    (wafVersion : String) (wafRun : List (String × DataVal) → WafResult)
    (a : SpanFinishArgs) (ctx : AppSecCtx)
    (hweb : a.spanType = some SpanTypes_WEB)
    (hmatch : (wafRun (assembleData needed ctx)).data.isSome = true
      ∨ ctx.blocked.getD false = true)
    (hallow : a.allowed = true) :
    onSpanFinish needed info wafVersion wafRun a ctx
      = (appsecBaseOps info wafVersion (ctx.blocked.getD false)
          (if ctx.blocked.getD false = false
            then (wafRun (assembleData needed ctx)).runtime
            else ctx.wafDuration.getD 0)
          (if ctx.blocked.getD false = false
            then (wafRun (assembleData needed ctx)).total_runtime
            else ctx.wafDurationExt.getD 0)
        ++ appsecEventOps (assembleData needed ctx) (ctx.blocked.getD false)
            (if ctx.blocked.getD false = false
              then (wafRun (assembleData needed ctx)).data
              else Option.none)
            ctx a.originTag,
         if ctx.blocked.getD false = false then 1 else 0) := by
  rw [onSpanFinish, if_neg (by simp [hweb])]
  cases hb : ctx.blocked.getD false with
  | true => simp [hb, hallow]
  | false =>
      rcases hmatch with hm | hm
      · simp [hb, hallow, hm]
      · rw [hb] at hm
        cases hm

/-- Whether a span carries a recorded security event after
`on_span_finish`. -/
def recordsEvent (needed : List String) (info : WafInfo) (wafVersion : String)
    (wafRun : List (String × DataVal) → WafResult)
    (r : SpanFinishArgs × AppSecCtx) : Bool :=
  ((onSpanFinish needed info wafVersion wafRun r.1 r.2).1.map opKey).contains
    "appsec.event"

theorem appsecBaseOps_no_event (info : WafInfo) (wafVersion : String)
    (b : Bool) (tr te : Nat) :
    ((appsecBaseOps info wafVersion b tr te).map opKey).contains "appsec.event"
      = false := by
  cases hc : ((appsecBaseOps info wafVersion b tr te).map opKey).contains "appsec.event" with
  | false => rfl
  | true =>
      have hmem : "appsec.event" ∈ (appsecBaseOps info wafVersion b tr te).map opKey :=
        List.elem_iff.mp hc
      have hin := appsecBaseOps_keys info wafVersion b tr te _ hmem
      have : ¬("appsec.event" ∈ appsecPreKeys) := by decide
      exact absurd hin this

theorem appsecEventOps_has_event (data : List (String × DataVal)) (b : Bool)
    (res : Option String) (ctx : AppSecCtx) (o : Option String) :
    "appsec.event" ∈ (appsecEventOps data b res ctx o).map opKey := by
  have hmem : SpanOp.setTagStr "appsec.event" "true" ∈ appsecEventOps data b res ctx o := by
    rw [appsecEventOps]
    simp [List.mem_append]
  exact List.mem_map.mpr ⟨_, hmem, rfl⟩

/-- On a matching web request, a security event is recorded exactly when
the rate limiter allows. -/
theorem recordsEvent_eq_allowed (needed : List String) (info : WafInfo)
    (wafVersion : String) (wafRun : List (String × DataVal) → WafResult)
    (r : SpanFinishArgs × AppSecCtx)
    (hweb : r.1.spanType = some SpanTypes_WEB)
    (hmatch : (wafRun (assembleData needed r.2)).data.isSome = true
      ∨ r.2.blocked.getD false = true) :
    recordsEvent needed info wafVersion wafRun r = r.1.allowed := by
  obtain ⟨a, ctx⟩ := r
  cases ha : a.allowed with
  | false =>
      rw [recordsEvent, onSpanFinish_denied needed info wafVersion wafRun a ctx hweb hmatch ha]
      exact appsecBaseOps_no_event _ _ _ _ _
  | true =>
      rw [recordsEvent, onSpanFinish_allowed needed info wafVersion wafRun a ctx hweb hmatch ha]
      refine List.elem_iff.mpr ?_
      rw [List.map_append]
      exact List.mem_append_right _ (appsecEventOps_has_event _ _ _ _ _)

theorem appsecBaseOps_has_durations (info : WafInfo) (wafVersion : String)
    (tr te : Nat) :
    APPSEC_WAF_DURATION ∈ (appsecBaseOps info wafVersion false tr te).map opKey
    ∧ APPSEC_WAF_DURATION_EXT ∈ (appsecBaseOps info wafVersion false tr te).map opKey := by
  by_cases he : info.errors = [] <;> simp [appsecBaseOps, opKey, he]

/-- C6: when the WAF evaluation matched (or the request was pre-decided
blocked) but the rate limiter denies the event, `on_span_finish` performs
exactly the pre-limiter writes: no `appsec.event`, `_dd.appsec.json`,
`actor.ip`, manual-keep or origin tag is added, indeed no `set_tag` write
at all happens (so no header snapshot either), while the WAF
metric/duration writes made before the limiter check remain (the duration
metrics whenever the request was not pre-decided blocked); and over any
list of matching web requests, exactly those the limiter allows carry a
recorded security event. -/
theorem rate_limiter_suppresses_event (needed : List String) (info : WafInfo)
    (wafVersion : String) (wafRun : List (String × DataVal) → WafResult)
    (a : SpanFinishArgs) (ctx : AppSecCtx)
    (hweb : a.spanType = some SpanTypes_WEB)
    (hmatch : (wafRun (assembleData needed ctx)).data.isSome = true
      ∨ ctx.blocked.getD false = true)
    (hdeny : a.allowed = false) :
    (∃ tr te, (onSpanFinish needed info wafVersion wafRun a ctx).1
        = appsecBaseOps info wafVersion (ctx.blocked.getD false) tr te)
    ∧ (∀ k ∈ (onSpanFinish needed info wafVersion wafRun a ctx).1.map opKey,
        k ∈ appsecPreKeys)
    ∧ "appsec.event" ∉ (onSpanFinish needed info wafVersion wafRun a ctx).1.map opKey
    ∧ APPSEC_JSON ∉ (onSpanFinish needed info wafVersion wafRun a ctx).1.map opKey
    ∧ "actor.ip" ∉ (onSpanFinish needed info wafVersion wafRun a ctx).1.map opKey
    ∧ MANUAL_KEEP_KEY ∉ (onSpanFinish needed info wafVersion wafRun a ctx).1.map opKey
    ∧ ORIGIN_KEY ∉ (onSpanFinish needed info wafVersion wafRun a ctx).1.map opKey
    ∧ (onSpanFinish needed info wafVersion wafRun a ctx).1.all
        (fun op => !(isSetTag op)) = true
    ∧ (ctx.blocked.getD false = false →
        APPSEC_WAF_DURATION
          ∈ (onSpanFinish needed info wafVersion wafRun a ctx).1.map opKey
        ∧ APPSEC_WAF_DURATION_EXT
          ∈ (onSpanFinish needed info wafVersion wafRun a ctx).1.map opKey)
    ∧ (∀ rs : List (SpanFinishArgs × AppSecCtx),
        (∀ r ∈ rs, r.1.spanType = some SpanTypes_WEB ∧
          ((wafRun (assembleData needed r.2)).data.isSome = true
            ∨ r.2.blocked.getD false = true)) →
        (rs.filter (recordsEvent needed info wafVersion wafRun)).length
          = (rs.filter (fun r => r.1.allowed)).length) := by
  have hout := onSpanFinish_denied needed info wafVersion wafRun a ctx hweb hmatch hdeny
  have h1 : (onSpanFinish needed info wafVersion wafRun a ctx).1
      = appsecBaseOps info wafVersion (ctx.blocked.getD false)
          (if ctx.blocked.getD false = false
            then (wafRun (assembleData needed ctx)).runtime
            else ctx.wafDuration.getD 0)
          (if ctx.blocked.getD false = false
            then (wafRun (assembleData needed ctx)).total_runtime
            else ctx.wafDurationExt.getD 0) := by
    rw [hout]
  have hkeys : ∀ k ∈ (onSpanFinish needed info wafVersion wafRun a ctx).1.map opKey,
      k ∈ appsecPreKeys := by
    rw [h1]
    exact appsecBaseOps_keys _ _ _ _ _
  refine ⟨⟨_, _, h1⟩, hkeys, ?_, ?_, ?_, ?_, ?_, ?_, ?_, ?_⟩
  · exact fun hm => absurd (hkeys _ hm) (by decide)
  · exact fun hm => absurd (hkeys _ hm) (by decide)
  · exact fun hm => absurd (hkeys _ hm) (by decide)
  · exact fun hm => absurd (hkeys _ hm) (by decide)
  · exact fun hm => absurd (hkeys _ hm) (by decide)
  · rw [h1]
    exact appsecBaseOps_no_setTag _ _ _ _ _
  · intro hb
    rw [h1, hb]
    exact appsecBaseOps_has_durations _ _ _ _
  · intro rs hall
    rw [List.filter_congr (fun r hr =>
      recordsEvent_eq_allowed needed info wafVersion wafRun r (hall r hr).1 (hall r hr).2)]

/-- Witness for `rate_limiter_suppresses_event` on a concrete matching but
rate-limited request. -/
theorem rate_limiter_suppresses_event_witness :
    "appsec.event" ∉ (onSpanFinish [Addr_client_ip] ⟨[], "v", 1, 0⟩ "w"
        (fun _ => ⟨some "[x]", [], 1, 2⟩)
        { spanType := some "web", allowed := false }
        { remoteIp := some "1.2.3.4" }).1.map opKey
    ∧ APPSEC_WAF_DURATION ∈ (onSpanFinish [Addr_client_ip] ⟨[], "v", 1, 0⟩ "w"
        (fun _ => ⟨some "[x]", [], 1, 2⟩)
        { spanType := some "web", allowed := false }
        { remoteIp := some "1.2.3.4" }).1.map opKey :=
  ⟨(rate_limiter_suppresses_event [Addr_client_ip] ⟨[], "v", 1, 0⟩ "w"
      (fun _ => ⟨some "[x]", [], 1, 2⟩)
      { spanType := some "web", allowed := false }
      { remoteIp := some "1.2.3.4" } rfl (Or.inl rfl) rfl).2.2.1,
   ((rate_limiter_suppresses_event [Addr_client_ip] ⟨[], "v", 1, 0⟩ "w"
      (fun _ => ⟨some "[x]", [], 1, 2⟩)
      { spanType := some "web", allowed := false }
      { remoteIp := some "1.2.3.4" } rfl (Or.inl rfl) rfl).2.2.2.2.2.2.2.2.1 rfl).1⟩

/-- C7 counterexample: a request pre-decided blocked at span start (early
client-IP match with a `"block"` action, stored durations 5 and 7) gets no
`_dd.appsec.waf.duration` / `_dd.appsec.waf.duration_ext` metric at all on
span finish — lines 343-345 set those metrics only when the request was
NOT blocked, so the stored durations are read back but never used. -/
theorem pre_decided_block_no_duration_metrics :
    (onSpanStart true [Addr_client_ip] (some "1.2.3.4")
        (fun _ => ⟨some "[x]", ["block"], 5, 7⟩)
        { headers := [("host", "h")] } {}).1.blocked = some true
    ∧ (onSpanStart true [Addr_client_ip] (some "1.2.3.4")
        (fun _ => ⟨some "[x]", ["block"], 5, 7⟩)
        { headers := [("host", "h")] } {}).1.wafDuration = some 5
    ∧ (onSpanStart true [Addr_client_ip] (some "1.2.3.4")
        (fun _ => ⟨some "[x]", ["block"], 5, 7⟩)
        { headers := [("host", "h")] } {}).1.wafDurationExt = some 7
    ∧ (onSpanFinish [Addr_client_ip] ⟨[], "v", 1, 0⟩ "w"
        (fun _ => ⟨some "[y]", [], 9, 11⟩) { spanType := some "web" }
        (onSpanStart true [Addr_client_ip] (some "1.2.3.4")
          (fun _ => ⟨some "[x]", ["block"], 5, 7⟩)
          { headers := [("host", "h")] } {}).1).2 = 0
    ∧ APPSEC_WAF_DURATION ∉ ((onSpanFinish [Addr_client_ip] ⟨[], "v", 1, 0⟩ "w"
        (fun _ => ⟨some "[y]", [], 9, 11⟩) { spanType := some "web" }
        (onSpanStart true [Addr_client_ip] (some "1.2.3.4")
          (fun _ => ⟨some "[x]", ["block"], 5, 7⟩)
          { headers := [("host", "h")] } {}).1).1.map opKey)
    ∧ APPSEC_WAF_DURATION_EXT ∉ ((onSpanFinish [Addr_client_ip] ⟨[], "v", 1, 0⟩ "w"
        (fun _ => ⟨some "[y]", [], 9, 11⟩) { spanType := some "web" }
        (onSpanStart true [Addr_client_ip] (some "1.2.3.4")
          (fun _ => ⟨some "[x]", ["block"], 5, 7⟩)
          { headers := [("host", "h")] } {}).1).1.map opKey) :=
  ⟨rfl, rfl, rfl, rfl, by decide, by decide⟩

/-- C7 (amended): for a request pre-decided blocked at span start (early
client-IP evaluation matched with a `"block"` action), `on_span_finish`
does not invoke the WAF a second time (zero calls), it reuses the stored
`waf_json` for the security-event tag (`set_tag(APPSEC_JSON, ...)` when
the limiter allows), but it does NOT set the WAF duration metrics at all:
the stored `waf_duration` / `waf_duration_ext` are read back into locals
that are only consumed by the not-blocked branch. -/
theorem pre_decided_block_skips_second_waf
    (needed : List String) (info : WafInfo) (wafVersion : String)
    (wafStart wafFinish : List (String × DataVal) → WafResult)
    (clientIp : String) (a0 : SpanStartArgs) (aF : SpanFinishArgs) (ctx : AppSecCtx)
    (hip : clientIp.isEmpty = false)
    (hneed : needed.contains Addr_client_ip = true)
    (henv : (match a0.peerIp with
      | some p => !(p.isEmpty)
      | Option.none => false) = true ∨ a0.headers ≠ [])
    (hblock : (wafStart [(Addr_client_ip, DataVal.s clientIp)]).actions.contains
      "block" = true)
    (hweb : aF.spanType = some SpanTypes_WEB) :
    (onSpanStart true needed (some clientIp) wafStart a0 ctx).2 = 1
    ∧ (onSpanStart true needed (some clientIp) wafStart a0 ctx).1.blocked = some true
    ∧ (onSpanStart true needed (some clientIp) wafStart a0 ctx).1.wafJson
        = some (jsonTriggers
            ((wafStart [(Addr_client_ip, DataVal.s clientIp)]).data.getD ""))
    ∧ (onSpanStart true needed (some clientIp) wafStart a0 ctx).1.wafDuration
        = some (wafStart [(Addr_client_ip, DataVal.s clientIp)]).runtime
    ∧ (onSpanStart true needed (some clientIp) wafStart a0 ctx).1.wafDurationExt
        = some (wafStart [(Addr_client_ip, DataVal.s clientIp)]).total_runtime
    ∧ (onSpanFinish needed info wafVersion wafFinish aF
        (onSpanStart true needed (some clientIp) wafStart a0 ctx).1).2 = 0
    ∧ (onSpanFinish needed info wafVersion wafFinish aF
        (onSpanStart true needed (some clientIp) wafStart a0 ctx).1).1.all
        (fun op => !(isDurationMetric op)) = true
    ∧ (aF.allowed = true →
        SpanOp.setTag APPSEC_JSON (optStrToPy
            (onSpanStart true needed (some clientIp) wafStart a0 ctx).1.wafJson)
          ∈ (onSpanFinish needed info wafVersion wafFinish aF
              (onSpanStart true needed (some clientIp) wafStart a0 ctx).1).1) := by
  have hact : (wafStart [(Addr_client_ip, DataVal.s clientIp)]).actions ≠ [] := by
    intro hnil
    rw [hnil] at hblock
    simp [List.contains] at hblock
  have hstart : onSpanStart true needed (some clientIp) wafStart a0 ctx
      = ({ ctx with
            reqHeaders := some a0.headers,
            headersCaseSensitive := some a0.headersCaseSensitive,
            remoteIp := some clientIp,
            wafJson := some (jsonTriggers
              ((wafStart [(Addr_client_ip, DataVal.s clientIp)]).data.getD "")),
            wafDuration := some (wafStart [(Addr_client_ip, DataVal.s clientIp)]).runtime,
            wafDurationExt :=
              some (wafStart [(Addr_client_ip, DataVal.s clientIp)]).total_runtime,
            wafActions := some (wafStart [(Addr_client_ip, DataVal.s clientIp)]).actions,
            blocked := some true }, 1) := by
    rw [onSpanStart, if_pos ⟨rfl, henv⟩]
    show (if !(clientIp.isEmpty) ∧ needed.contains Addr_client_ip then _ else _) = _
    rw [if_pos ⟨by simp [hip], hneed⟩, if_pos ⟨hact, hblock⟩]
  rw [hstart]
  have hctxb : ({ ctx with
      reqHeaders := some a0.headers,
      headersCaseSensitive := some a0.headersCaseSensitive,
      remoteIp := some clientIp,
      wafJson := some (jsonTriggers
        ((wafStart [(Addr_client_ip, DataVal.s clientIp)]).data.getD "")),
      wafDuration := some (wafStart [(Addr_client_ip, DataVal.s clientIp)]).runtime,
      wafDurationExt :=
        some (wafStart [(Addr_client_ip, DataVal.s clientIp)]).total_runtime,
      wafActions := some (wafStart [(Addr_client_ip, DataVal.s clientIp)]).actions,
      blocked := some true } : AppSecCtx).blocked.getD false = true := rfl
  refine ⟨rfl, rfl, rfl, rfl, rfl, ?_, ?_, ?_⟩
  · cases ha : aF.allowed with
    | false =>
        rw [onSpanFinish_denied _ _ _ _ _ _ hweb (Or.inr hctxb) ha]
        simp [hctxb]
    | true =>
        rw [onSpanFinish_allowed _ _ _ _ _ _ hweb (Or.inr hctxb) ha]
        simp [hctxb]
  · cases ha : aF.allowed with
    | false =>
        rw [onSpanFinish_denied _ _ _ _ _ _ hweb (Or.inr hctxb) ha]
        simp only [hctxb]
        exact appsecBaseOps_blocked_no_duration _ _ _ _
    | true =>
        rw [onSpanFinish_allowed _ _ _ _ _ _ hweb (Or.inr hctxb) ha]
        simp only [hctxb, List.all_append]
        rw [appsecBaseOps_blocked_no_duration, appsecEventOps_no_duration]
        rfl
  · intro ha
    rw [onSpanFinish_allowed _ _ _ _ _ _ hweb (Or.inr hctxb) ha]
    simp only [hctxb]
    refine List.mem_append_right _ ?_
    rw [appsecEventOps]
    simp [List.mem_append]

/-- Witness for `pre_decided_block_skips_second_waf` at concrete inputs. -/
theorem pre_decided_block_skips_second_waf_witness :
    (onSpanStart true [Addr_client_ip] (some "1.2.3.4")
        (fun _ => ⟨some "[x]", ["block"], 5, 7⟩)
        { headers := [("host", "h")] } {}).2 = 1
    ∧ (onSpanStart true [Addr_client_ip] (some "1.2.3.4")
        (fun _ => ⟨some "[x]", ["block"], 5, 7⟩)
        { headers := [("host", "h")] } {}).1.blocked = some true
    ∧ (onSpanStart true [Addr_client_ip] (some "1.2.3.4")
        (fun _ => ⟨some "[x]", ["block"], 5, 7⟩)
        { headers := [("host", "h")] } {}).1.wafJson
        = some (jsonTriggers
            (((fun (_ : List (String × DataVal)) =>
                (⟨some "[x]", ["block"], 5, 7⟩ : WafResult))
              [(Addr_client_ip, DataVal.s "1.2.3.4")]).data.getD ""))
    ∧ (onSpanStart true [Addr_client_ip] (some "1.2.3.4")
        (fun _ => ⟨some "[x]", ["block"], 5, 7⟩)
        { headers := [("host", "h")] } {}).1.wafDuration
        = some ((fun (_ : List (String × DataVal)) =>
            (⟨some "[x]", ["block"], 5, 7⟩ : WafResult))
          [(Addr_client_ip, DataVal.s "1.2.3.4")]).runtime
    ∧ (onSpanStart true [Addr_client_ip] (some "1.2.3.4")
        (fun _ => ⟨some "[x]", ["block"], 5, 7⟩)
        { headers := [("host", "h")] } {}).1.wafDurationExt
        = some ((fun (_ : List (String × DataVal)) =>
            (⟨some "[x]", ["block"], 5, 7⟩ : WafResult))
          [(Addr_client_ip, DataVal.s "1.2.3.4")]).total_runtime
    ∧ (onSpanFinish [Addr_client_ip] ⟨[], "v", 1, 0⟩ "w"
        (fun _ => ⟨some "[y]", [], 9, 11⟩) { spanType := some "web" }
        (onSpanStart true [Addr_client_ip] (some "1.2.3.4")
          (fun _ => ⟨some "[x]", ["block"], 5, 7⟩)
          { headers := [("host", "h")] } {}).1).2 = 0
    ∧ ((onSpanFinish [Addr_client_ip] ⟨[], "v", 1, 0⟩ "w"
        (fun _ => ⟨some "[y]", [], 9, 11⟩) { spanType := some "web" }
        (onSpanStart true [Addr_client_ip] (some "1.2.3.4")
          (fun _ => ⟨some "[x]", ["block"], 5, 7⟩)
          { headers := [("host", "h")] } {}).1).1.all
        (fun op => !(isDurationMetric op))) = true
    ∧ ((SpanFinishArgs.mk (some "web") Option.none true).allowed = true →
        SpanOp.setTag APPSEC_JSON (optStrToPy
            (onSpanStart true [Addr_client_ip] (some "1.2.3.4")
              (fun _ => ⟨some "[x]", ["block"], 5, 7⟩)
              { headers := [("host", "h")] } {}).1.wafJson)
          ∈ (onSpanFinish [Addr_client_ip] ⟨[], "v", 1, 0⟩ "w"
              (fun _ => ⟨some "[y]", [], 9, 11⟩)
              (SpanFinishArgs.mk (some "web") Option.none true)
              (onSpanStart true [Addr_client_ip] (some "1.2.3.4")
                (fun _ => ⟨some "[x]", ["block"], 5, 7⟩)
                { headers := [("host", "h")] } {}).1).1) :=
  pre_decided_block_skips_second_waf [Addr_client_ip] ⟨[], "v", 1, 0⟩ "w"
    (fun _ => ⟨some "[x]", ["block"], 5, 7⟩) (fun _ => ⟨some "[y]", [], 9, 11⟩)
    "1.2.3.4" { headers := [("host", "h")] } (SpanFinishArgs.mk (some "web") Option.none true) {}
    rfl rfl (Or.inr (by simp)) rfl rfl

/-- C10: on a span whose type is not `"web"`, `on_span_finish` returns
immediately — no tag or metric is written and the WAF is not invoked,
whatever request data the context items hold. -/
theorem on_span_finish_non_web (needed : List String) (info : WafInfo)
    (wafVersion : String) (wafRun : List (String × DataVal) → WafResult)
    (a : SpanFinishArgs) (ctx : AppSecCtx)
    (h : a.spanType ≠ some SpanTypes_WEB) :
    onSpanFinish needed info wafVersion wafRun a ctx = ([], 0) := by
  rw [onSpanFinish, if_pos h]

/-- Witness for `on_span_finish_non_web`: a `"sql"` span with rich request
data in its context still gets nothing. -/
theorem on_span_finish_non_web_witness :
    onSpanFinish [Addr_client_ip, Addr_query] ⟨[("r1", "bad")], "v", 1, 1⟩ "w"
      (fun _ => ⟨some "[x]", ["block"], 5, 7⟩)
      { spanType := some "sql" }
      { remoteIp := some "1.2.3.4", reqQuery := some (PyVal.str "q"),
        blocked := some true } = ([], 0) :=
  on_span_finish_non_web _ _ _ _ _ _ (by decide)

end DDTrace